/- Verification of the contract-agent RAG pipeline (backend/app/services).

   This file is a shallow embedding of the code that the frozen claims
   C1-C10 are about: the enhanced chunker (chunking_enhanced.py), the
   enhanced retrieval pipeline (rag_enhanced.py), the query rewriter
   (query_rewriter.py), the embedding client (embedding.py /
   openrouter.py) and the indexing helper (indexing.py).

   Modelling conventions:
   - Python strings are modelled as lists of characters (`Str`); string
     labels that are only compared for equality (intent names, file ids,
     clause tags, vector ids) stay Lean `String`s.
   - Python floats are modelled as rationals.
   - Network calls (the Pinecone store, the OpenRouter embedding and chat
     endpoints, `json.loads`) are modelled as oracle function parameters;
     a Python exception raised by such a call is an `Except.error` /
     `none` result of the oracle.
   - Python `dict.get(k, d)` on optional metadata fields is modelled with
     `Option.getD`. -/
import Mathlib

/-- Characters treated as whitespace by Python `str.strip()` and by the
`re` module's `\s` class (ASCII range). -/
def isPyWs (c : Char) : Bool :=
  c = ' ' || c = '\t' || c = '\n' || c = '\r' || c = '\x0b' || c = '\x0c'

/-- Python strings, modelled as lists of characters. -/
abbrev Str := List Char

/-- Python `str.strip()`. -/
def pyStrip (s : Str) : Str :=
  ((s.dropWhile isPyWs).reverse.dropWhile isPyWs).reverse

/-- Python `str.lower()` (ASCII case folding). -/
def lowerStr (s : Str) : Str := s.map Char.toLower

/-- Test whether the first list is an initial segment of the second. -/
def startsWithStr : Str → Str → Bool
  | [], _ => true
  | _ :: _, [] => false
  | a :: as, b :: bs => a = b && startsWithStr as bs

/-- Python substring containment `needle in hay`. -/
def hasSubStr (needle : Str) : Str → Bool
  | [] => needle.isEmpty
  | c :: cs => startsWithStr needle (c :: cs) || hasSubStr needle cs

/-- Python `s.split(sep)` for a one-character separator. -/
def splitOnChar (sep : Char) : Str → List Str
  | [] => [[]]
  | c :: cs =>
    match splitOnChar sep cs with
    | [] => [[]]
    | r :: rs => if c = sep then [] :: r :: rs else (c :: r) :: rs

/-- Python `s.split("\n\n")` (left-to-right, non-overlapping). -/
def splitParas : Str → List Str
  | '\n' :: '\n' :: cs => [] :: splitParas cs
  | c :: cs =>
    match splitParas cs with
    | [] => [[]]
    | r :: rs => (c :: r) :: rs
  | [] => [[]]

/-- Python `"\n".join(lines)`. -/
def joinLines (lines : List Str) : Str := List.intercalate ['\n'] lines

/-- Python negative-start slice `s[-n:]` for `n > 0`: the last
`min n (length s)` characters. -/
def takeRight (n : Nat) (s : Str) : Str := s.drop (s.length - n)

/-- Characters matched by the regex class `\w` (ASCII). -/
def isWordChar (c : Char) : Bool := c.isAlphanum || c = '_'

/-- Worker for `wordsOf`: `w` holds the reversed characters of the word
run currently being read. -/
def wordsAux : Str → Str → List Str
  | w, [] => if w = [] then [] else [w.reverse]
  | w, c :: cs =>
    if isWordChar c then wordsAux (c :: w) cs
    else if w = [] then wordsAux [] cs
    else w.reverse :: wordsAux [] cs

/-- Python `re.findall(r'\b\w+\b', s)`: the maximal runs of word
characters. -/
def wordsOf (s : Str) : List Str := wordsAux [] s

/- ------------------------------------------------------------------
   chunking_enhanced.py : heading-pattern matchers.

   `_identify_structure` applies `re.match(pattern, line, re.IGNORECASE)`
   for the section patterns (so `[A-Z]` there matches any ASCII letter),
   `re.match` without flags for the clause patterns, and `re.search`
   with IGNORECASE for the exhibit patterns.  Each regex below is
   deterministic (no backtracking can change the outcome), so it is
   modelled by a direct scanner.
   ------------------------------------------------------------------ -/

/-- ASCII uppercase letter (the class `[A-Z]` without IGNORECASE). -/
def isUpperAZ (c : Char) : Bool := 'A' ≤ c && c ≤ 'Z'

/-- ASCII lowercase letter. -/
def isLowerAZ (c : Char) : Bool := 'a' ≤ c && c ≤ 'z'

/-- ASCII letter (the class `[A-Z]` under IGNORECASE). -/
def isAlphaAscii (c : Char) : Bool := isUpperAZ c || isLowerAZ c

/-- Consume one-or-more characters satisfying `p` (regex `p+`), returning
the remainder, or `none` when the first character does not match. -/
def eatPlus (p : Char → Bool) : Str → Option Str
  | [] => none
  | c :: cs => if p c then some (cs.dropWhile p) else none

/-- Consume zero-or-one character satisfying `p` (regex `p?`). -/
def eatOpt (p : Char → Bool) : Str → Str
  | [] => []
  | c :: cs => if p c then cs else c :: cs

/-- Consume a case-insensitive literal, returning the remainder. -/
def dropLitIC : Str → Str → Option Str
  | [], s => some s
  | _ :: _, [] => none
  | l :: ls, c :: cs =>
    if l.toLower = c.toLower then dropLitIC ls cs else none

/-- Regex `^KW\s+\d+[\.:]?\s*[A-Z]` under IGNORECASE, with `KW` a literal
keyword (used for `SECTION n:` and `Article n:`). -/
def matchKwNum (kw : Str) (s : Str) : Bool :=
  match dropLitIC kw s with
  | none => false
  | some r1 =>
    match eatPlus isPyWs r1 with
    | none => false
    | some r2 =>
      match eatPlus Char.isDigit r2 with
      | none => false
      | some r3 =>
        let r4 := eatOpt (fun c => c = '.' || c = ':') r3
        match r4.dropWhile isPyWs with
        | c :: _ => isAlphaAscii c
        | [] => false

/-- Regex `^\d+\.\s+[A-Z][A-Z\s]{10,}` under IGNORECASE. -/
def matchNumTitle (s : Str) : Bool :=
  match eatPlus Char.isDigit s with
  | none => false
  | some r1 =>
    match r1 with
    | '.' :: r2 =>
      match eatPlus isPyWs r2 with
      | none => false
      | some r3 =>
        match r3 with
        | c :: r4 =>
          isAlphaAscii c &&
            10 ≤ (r4.takeWhile (fun d => isAlphaAscii d || isPyWs d)).length
        | [] => false
    | _ => false

/-- Regex `^[A-Z][A-Z\s]{15,}$` under IGNORECASE. -/
def matchCapsLine (s : Str) : Bool :=
  match s with
  | c :: rest =>
    isAlphaAscii c && 15 ≤ rest.length &&
      rest.all (fun d => isAlphaAscii d || isPyWs d)
  | [] => false

/-- Automaton state for the regex
`^[A-Z][a-z]+(?:\s+[A-Z][a-z]+)*:\s*$` under IGNORECASE.  `word n` means
`n` letters of the current word have been read, `gap` means inside the
inter-word whitespace, `fin` means the colon has been read (only
whitespace may follow), `dead` is the reject state. -/
inductive TCState where
  | word (n : Nat)
  | gap
  | fin
  | dead
deriving DecidableEq

/-- Transition function for `matchTitleCase`.  A word must contain at
least two letters (`[A-Z][a-z]+`); the colon must directly follow a
word; after the colon only whitespace may appear.  The regex is
deterministic (`[a-z]+` is greedy and no shorter match can succeed), so
this automaton decides exactly the regex. -/
def tcStep : TCState -> Char -> TCState
  | TCState.word n, c =>
    if isAlphaAscii c then TCState.word (n + 1)
    else if c = ':' then (if 2 <= n then TCState.fin else TCState.dead)
    else if isPyWs c then (if 2 <= n then TCState.gap else TCState.dead)
    else TCState.dead
  | TCState.gap, c =>
    if isPyWs c then TCState.gap
    else if isAlphaAscii c then TCState.word 1
    else TCState.dead
  | TCState.fin, c => if isPyWs c then TCState.fin else TCState.dead
  | TCState.dead, _ => TCState.dead

/-- Regex `^[A-Z][a-z]+(?:\s+[A-Z][a-z]+)*:\s*$` under IGNORECASE
(`Title Case Heading:`). -/
def matchTitleCase (s : Str) : Bool :=
  s.foldl tcStep (TCState.word 0) = TCState.fin

/-- SECTION_PATTERNS, in declaration order. -/
def sectionPatterns : List (Str → Bool) :=
  [matchKwNum "section".toList, matchKwNum "article".toList,
   matchNumTitle, matchCapsLine, matchTitleCase]

/-- Regex `^\d+\.\d+\.?\s+[A-Z]` (case-sensitive). -/
def matchClauseNum (s : Str) : Bool :=
  match eatPlus Char.isDigit s with
  | none => false
  | some r1 =>
    match r1 with
    | '.' :: r2 =>
      match eatPlus Char.isDigit r2 with
      | none => false
      | some r3 =>
        let r4 := eatOpt (fun c => c = '.') r3
        match eatPlus isPyWs r4 with
        | none => false
        | some r5 =>
          match r5 with
          | c :: _ => isUpperAZ c
          | [] => false
    | _ => false

/-- Regex `^\([a-z]\)\s+[A-Z]` (case-sensitive). -/
def matchLetterClause (s : Str) : Bool :=
  match s with
  | '(' :: c :: ')' :: r =>
    isLowerAZ c &&
      (match eatPlus isPyWs r with
       | some (d :: _) => isUpperAZ d
       | _ => false)
  | _ => false

/-- Regex `^\([ivx]+\)\s+[A-Z]` (case-sensitive). -/
def matchRomanClause (s : Str) : Bool :=
  match s with
  | '(' :: r =>
    (match eatPlus (fun c => c = 'i' || c = 'v' || c = 'x') r with
     | some (')' :: r2) =>
       (match eatPlus isPyWs r2 with
        | some (d :: _) => isUpperAZ d
        | _ => false)
     | _ => false)
  | _ => false

/-- CLAUSE_PATTERNS, in declaration order. -/
def clausePatterns : List (Str → Bool) :=
  [matchClauseNum, matchLetterClause, matchRomanClause]

/-- Regex `KW\s+[A-Z]` under IGNORECASE located anywhere in the line
(`re.search`), with `KW` one of EXHIBIT/ATTACHMENT/APPENDIX/SCHEDULE. -/
def searchExhibit (kw : Str) : Str → Bool
  | [] => false
  | c :: cs =>
    (match dropLitIC kw (c :: cs) with
     | some r =>
       (match eatPlus isPyWs r with
        | some (d :: _) => isAlphaAscii d
        | _ => false)
     | none => false) ||
    searchExhibit kw cs

/-- EXHIBIT_PATTERNS, in declaration order. -/
def exhibitPatterns : List (Str → Bool) :=
  [searchExhibit "exhibit".toList, searchExhibit "attachment".toList,
   searchExhibit "appendix".toList, searchExhibit "schedule".toList]

/- ------------------------------------------------------------------
   chunking_enhanced.py : EnhancedChunkingService.
   ------------------------------------------------------------------ -/

/-- Configuration stored by `EnhancedChunkingService.__init__`. -/
structure ChunkCfg where
  chunk_size : Nat
  overlap : Nat
  min_chunk_size : Nat
deriving DecidableEq

/-- EnhancedChunkingService.__init__: the constructor only stores the three
sizes.  It contains no validation of any kind, so it is a total function. -/
def mkEnhancedChunkingService (chunk_size overlap min_chunk_size : Nat) :
    ChunkCfg :=
  { chunk_size := chunk_size, overlap := overlap,
    min_chunk_size := min_chunk_size }

/-- Module-level instance `enhanced_chunking_service`. -/
def enhanced_chunking_service : ChunkCfg := mkEnhancedChunkingService 800 150 100

/-- Record for an entry of `structure['sections']`: line number, stripped
line text, heading level. -/
structure SecHeading where
  line_number : Nat
  title : Str
  level : Nat
deriving DecidableEq

/-- Record for an entry of `structure['headings']` (clause headings): line
number and stripped line text.  The `parent_section` field of the Python
dict is never read downstream and is omitted. -/
structure ClauseHeading where
  line_number : Nat
  title : Str
deriving DecidableEq

/-- Output of `_identify_structure`: the sections and clause headings.
The `exhibits` and `tables` lists are collected by the Python code but
never read by `_split_into_sections` or `_chunk_section`; exhibits are
kept here for faithfulness, tables are always empty in the source. -/
structure DocStructure where
  sections : List SecHeading
  headings : List ClauseHeading
  exhibits : List (Nat × Str)
deriving DecidableEq

/-- `_detect_heading_level`. -/
def detect_heading_level (heading : Str) : Nat :=
  if (match dropLitIC "section".toList heading with
      | some r => (eatPlus isPyWs r).bind (eatPlus Char.isDigit) |>.isSome
      | none => false) then 1
  else if (match dropLitIC "article".toList heading with
      | some r => (eatPlus isPyWs r).bind (eatPlus Char.isDigit) |>.isSome
      | none => false) then 1
  else if (match eatPlus Char.isDigit heading with
      | some ('.' :: r2) =>
        (match eatPlus isPyWs r2 with
         | some (c :: _) => isUpperAZ c
         | _ => false)
      | _ => false) then 2
  else if (match eatPlus Char.isDigit heading with
      | some ('.' :: r2) =>
        (match eatPlus Char.isDigit r2 with
         | some ('.' :: _) => true
         | _ => false)
      | _ => false) then 3
  else 2

/-- `_identify_structure`: scan the lines; a non-blank stripped line that
matches a section pattern (first match wins, which equals `List.any`)
is recorded as a section with its detected level; independently it is
also tested against the clause patterns and the exhibit patterns. -/
def identify_structure (text : Str) : DocStructure :=
  let lines := (splitOnChar '\n' text).enum
  { sections := lines.filterMap (fun p =>
      let ls := pyStrip p.2
      if ls = [] then none
      else if sectionPatterns.any (fun m => m ls) then
        some { line_number := p.1, title := ls,
               level := detect_heading_level ls }
      else none),
    headings := lines.filterMap (fun p =>
      let ls := pyStrip p.2
      if ls = [] then none
      else if clausePatterns.any (fun m => m ls) then
        some { line_number := p.1, title := ls }
      else none),
    exhibits := lines.filterMap (fun p =>
      let ls := pyStrip p.2
      if ls = [] then none
      else if exhibitPatterns.any (fun m => m ls) then some (p.1, ls)
      else none) }

/-- A section produced by `_split_into_sections`: optional title, body
text, optional heading level (the paragraph fallback carries no level,
and the level is never read by the chunking stage). -/
structure DocSection where
  title : Option Str
  text : Str
  level : Option Nat
deriving DecidableEq

/-- State of the `_split_into_sections` loop: the accumulated sections,
the current section heading (title and the level that
`current_section.get('level', 2)` would yield) and the accumulated
lines of the current section body. -/
structure SplitState where
  out : List DocSection
  cur : Option (Str × Nat)
  curText : List Str

/-- One line of the `_split_into_sections` loop body. -/
def splitStep (st : DocStructure) (acc : SplitState) (p : Nat × Str) :
    SplitState :=
  match st.sections.find? (fun s => s.line_number = p.1) with
  | some s =>
    -- section heading: flush the previous section even when its body is
    -- empty (guard is just `if current_section:`)
    { out := acc.out ++
        (match acc.cur with
         | some (t, lv) =>
           [{ title := some t, text := joinLines acc.curText,
              level := some lv }]
         | none => []),
      cur := some (s.title, s.level), curText := [] }
  | none =>
    match st.headings.find? (fun h => h.line_number = p.1) with
    | some h =>
      -- clause heading: flush only `if current_section and current_text`
      { out := acc.out ++
          (match acc.cur with
           | some (t, lv) =>
             if acc.curText ≠ [] then
               [{ title := some t, text := joinLines acc.curText,
                  level := some lv }]
             else []
           | none => []),
        cur := some (h.title, 2), curText := [] }
    | none => { acc with curText := acc.curText ++ [p.2] }

/-- `_split_into_sections`. -/
def split_into_sections (text : Str) (st : DocStructure) : List DocSection :=
  if st.sections = [] ∧ st.headings = [] then
    [{ title := none, text := text, level := none }]
  else
    let fin := ((splitOnChar '\n' text).enum).foldl (splitStep st)
      { out := [], cur := none, curText := [] }
    let out := fin.out ++
      (match fin.cur with
       | some (t, lv) =>
         if fin.curText ≠ [] then
           [{ title := some t, text := joinLines fin.curText,
              level := some lv }]
         else []
       | none => [])
    if out = [] then [{ title := none, text := text, level := none }]
    else out

/-- Sentence-ending characters for the lookbehind `(?<=[.!?])`. -/
def isSentEnd (c : Char) : Bool := c = '.' || c = '!' || c = '?'

/-- Raw splitting of `re.split(r'(?<=[.!?])\s+(?=[A-Z])', text)`: a split
point is a maximal whitespace run that is preceded by `.`/`!`/`?` and
followed by an ASCII uppercase letter; the whitespace run (the matched
delimiter) is dropped.  One-character automaton pass: `cur` holds the
reversed current sentence, `pend` the reversed pending whitespace run,
and `endBefore` records whether the character immediately before the
pending run is a sentence end. -/
def sentSplitAux : Str → Str → Bool → Str → List Str
  | cur, pend, _, [] => [(pend ++ cur).reverse]
  | cur, pend, endBefore, c :: rest =>
    if isPyWs c then
      sentSplitAux cur (c :: pend) endBefore rest
    else if pend ≠ [] ∧ endBefore ∧ isUpperAZ c then
      cur.reverse :: sentSplitAux [c] [] (isSentEnd c) rest
    else
      sentSplitAux (c :: (pend ++ cur)) [] (isSentEnd c) rest

/-- `_split_sentences`: split, then strip each piece and drop the empty
ones. -/
def split_sentences (text : Str) : List Str :=
  ((sentSplitAux [] [] false text).map pyStrip).filter (fun s => s ≠ [])

/-- Keyword-to-tag dictionary of `_detect_clause_types`, in declaration
order. -/
def clause_keywords : List (String × List Str) :=
  [("payment", ["payment".toList, "compensation".toList, "fee".toList,
     "invoice".toList, "billing".toList, "price".toList]),
   ("termination", ["termination".toList, "terminate".toList,
     "cancel".toList, "expire".toList, "end of agreement".toList]),
   ("liability", ["liability".toList, "liable".toList, "damage".toList,
     "loss".toList]),
   ("indemnification", ["indemnif".toList, "hold harmless".toList,
     "defend".toList]),
   ("confidentiality", ["confidential".toList, "non-disclosure".toList,
     "nda".toList, "proprietary".toList]),
   ("scope", ["scope of work".toList, "services".toList,
     "deliverables".toList, "work to be performed".toList]),
   ("warranty", ["warranty".toList, "warrant".toList, "guarantee".toList]),
   ("insurance", ["insurance".toList, "coverage".toList, "policy".toList]),
   ("dispute", ["dispute".toList, "arbitration".toList,
     "mediation".toList, "jurisdiction".toList])]

/-- `_detect_clause_types`: the tags whose keyword list has a substring
match in the lowercased chunk text, in dictionary order. -/
def detect_clause_types (text : Str) : List String :=
  let tl := lowerStr text
  (clause_keywords.filter (fun p => p.2.any (fun kw => hasSubStr kw tl))).map
    (fun p => p.1)

/-- A chunk produced by `_create_enhanced_chunk`.  The `metadata` dict is
flattened into the `file_id`/`page` fields (its only uses in the
repository). -/
structure DocChunk where
  chunk_index : Nat
  text : Str
  char_count : Nat
  token_estimate : Nat
  section_title : Option Str
  has_section_title : Bool
  file_id : Option String
  page : Option Nat
  detected_clauses : List String
deriving DecidableEq

/-- `_create_enhanced_chunk`. -/
def create_enhanced_chunk (text : Str) (index : Nat)
    (section_title : Option Str) (file_id : Option String)
    (page_number : Option Nat) : DocChunk :=
  { chunk_index := index, text := text, char_count := text.length,
    token_estimate := text.length / 4, section_title := section_title,
    has_section_title := section_title.isSome, file_id := file_id,
    page := page_number, detected_clauses := detect_clause_types text }

/-- State of the `_chunk_section` loop: accumulated chunks, the running
buffer `current_chunk`, and the next chunk index. -/
structure ChunkState where
  chunks : List DocChunk
  cur : Str
  idx : Nat

/-- Flush guard `current_chunk.strip() and len(current_chunk.strip()) >=
min_chunk_size`. -/
def flushOk (cfg : ChunkCfg) (cur : Str) : Bool :=
  pyStrip cur ≠ [] && cfg.min_chunk_size ≤ (pyStrip cur).length

/-- Flush the buffer if the guard holds (the `if current_chunk.strip()
and len(...) >= self.min_chunk_size: chunks.append(...)` block). -/
def flushChunk (cfg : ChunkCfg) (section_title : Option Str)
    (file_id : Option String) (page : Option Nat) (s : ChunkState) :
    ChunkState :=
  if flushOk cfg s.cur then
    { chunks := s.chunks ++
        [create_enhanced_chunk (pyStrip s.cur) s.idx section_title file_id
          page],
      cur := s.cur, idx := s.idx + 1 }
  else s

/-- Inner loop of `_chunk_section` over the sentences of an oversized
paragraph. -/
def sentenceLoop (cfg : ChunkCfg) (section_title : Option Str)
    (file_id : Option String) (page : Option Nat) :
    List Str → ChunkState → ChunkState
  | [], s => s
  | sentence :: rest, s =>
    if s.cur.length + sentence.length + 2 ≤ cfg.chunk_size then
      sentenceLoop cfg section_title file_id page rest
        { s with cur := s.cur ++ sentence ++ [' '] }
    else
      let s1 := flushChunk cfg section_title file_id page s
      let cur' :=
        if s1.chunks ≠ [] ∧ 0 < cfg.overlap then
          pyStrip (takeRight cfg.overlap s1.cur) ++ ' ' :: (sentence ++ [' '])
        else
          sentence ++ [' ']
      sentenceLoop cfg section_title file_id page rest
        { s1 with cur := cur' }

/-- Outer loop of `_chunk_section` over the paragraphs of a section. -/
def paragraphLoop (cfg : ChunkCfg) (section_title : Option Str)
    (file_id : Option String) (page : Option Nat) :
    List Str → ChunkState → ChunkState
  | [], s => s
  | para :: rest, s =>
    if cfg.chunk_size < para.length then
      paragraphLoop cfg section_title file_id page rest
        (sentenceLoop cfg section_title file_id page (split_sentences para) s)
    else
      if s.cur.length + para.length + 2 ≤ cfg.chunk_size then
        paragraphLoop cfg section_title file_id page rest
          { s with cur := s.cur ++ para ++ ['\n', '\n'] }
      else
        let s1 := flushChunk cfg section_title file_id page s
        let cur' :=
          if s1.chunks ≠ [] ∧ 0 < cfg.overlap then
            pyStrip (takeRight cfg.overlap s1.cur) ++
              '\n' :: '\n' :: (para ++ ['\n', '\n'])
          else
            para ++ ['\n', '\n']
        paragraphLoop cfg section_title file_id page rest
          { s1 with cur := cur' }

/-- `_chunk_section`. -/
def chunk_section (cfg : ChunkCfg) (sec : DocSection) (start_index : Nat)
    (file_id : Option String) (page : Option Nat) : List DocChunk :=
  let paragraphs :=
    ((splitParas sec.text).map pyStrip).filter (fun p => p ≠ [])
  let fin := paragraphLoop cfg sec.title file_id page paragraphs
    { chunks := [], cur := [], idx := start_index }
  (flushChunk cfg sec.title file_id page fin).chunks

/-- `chunk_document`: empty or whitespace-only text yields no chunks;
otherwise split into sections and chunk each one, threading the running
chunk index. -/
def chunk_document (cfg : ChunkCfg) (text : Str) (file_id : Option String)
    (page_number : Option Nat) : List DocChunk :=
  if text = [] ∨ pyStrip text = [] then []
  else
    let st := identify_structure text
    let secs := split_into_sections text st
    (secs.foldl (fun (acc : List DocChunk × Nat) sec =>
      let cs := chunk_section cfg sec acc.2 file_id page_number
      (acc.1 ++ cs, acc.2 + cs.length)) ([], 0)).1

/- ------------------------------------------------------------------
   Minimum-chunk-size invariant of the chunking loop (claims C2 and C6).
   ------------------------------------------------------------------ -/

/-- Property enforced by every flush guard: a produced chunk is at least
`min_chunk_size` characters and non-empty. -/
def MinSized (cfg : ChunkCfg) (c : DocChunk) : Prop :=
  cfg.min_chunk_size ≤ c.char_count ∧ c.text ≠ []

theorem flushChunk_minSized (cfg : ChunkCfg) (st : Option Str)
    (fid : Option String) (pg : Option Nat) (s : ChunkState)
    (h : ∀ c ∈ s.chunks, MinSized cfg c) :
    ∀ c ∈ (flushChunk cfg st fid pg s).chunks, MinSized cfg c := by
  intro c hc
  unfold flushChunk at hc
  split at hc
  · rename_i hok
    simp only [List.mem_append, List.mem_singleton] at hc
    rcases hc with hc | hc
    · exact h c hc
    · subst hc
      simp only [flushOk, ne_eq, Bool.and_eq_true, decide_eq_true_eq] at hok
      exact ⟨hok.2, hok.1⟩
  · exact h c hc

theorem sentenceLoop_minSized (cfg : ChunkCfg) (st : Option Str)
    (fid : Option String) (pg : Option Nat) (sents : List Str) :
    ∀ s : ChunkState, (∀ c ∈ s.chunks, MinSized cfg c) →
      ∀ c ∈ (sentenceLoop cfg st fid pg sents s).chunks, MinSized cfg c := by
  induction sents with
  | nil => intro s h; exact h
  | cons sentence rest ih =>
    intro s h
    unfold sentenceLoop
    split
    · exact ih _ h
    · exact ih _ (flushChunk_minSized cfg st fid pg s h)

theorem paragraphLoop_minSized (cfg : ChunkCfg) (st : Option Str)
    (fid : Option String) (pg : Option Nat) (paras : List Str) :
    ∀ s : ChunkState, (∀ c ∈ s.chunks, MinSized cfg c) →
      ∀ c ∈ (paragraphLoop cfg st fid pg paras s).chunks, MinSized cfg c := by
  induction paras with
  | nil => intro s h; exact h
  | cons para rest ih =>
    intro s h
    unfold paragraphLoop
    split
    · exact ih _ (sentenceLoop_minSized cfg st fid pg _ s h)
    · split
      · exact ih _ h
      · exact ih _ (flushChunk_minSized cfg st fid pg s h)

theorem chunk_section_minSized (cfg : ChunkCfg) (sec : DocSection)
    (i : Nat) (fid : Option String) (pg : Option Nat) :
    ∀ c ∈ chunk_section cfg sec i fid pg, MinSized cfg c := by
  unfold chunk_section
  exact flushChunk_minSized cfg sec.title fid pg _
    (paragraphLoop_minSized cfg sec.title fid pg _ _ (by simp))

theorem chunk_document_minSized (cfg : ChunkCfg) (text : Str)
    (fid : Option String) (pg : Option Nat) :
    ∀ c ∈ chunk_document cfg text fid pg, MinSized cfg c := by
  unfold chunk_document
  split
  · simp
  · have key : ∀ (secs : List DocSection) (acc : List DocChunk × Nat),
        (∀ c ∈ acc.1, MinSized cfg c) →
        ∀ c ∈ (secs.foldl (fun (acc : List DocChunk × Nat) sec =>
          let cs := chunk_section cfg sec acc.2 fid pg
          (acc.1 ++ cs, acc.2 + cs.length)) acc).1, MinSized cfg c := by
      intro secs
      induction secs with
      | nil => intro acc h; exact h
      | cons sec rest ih =>
        intro acc h
        refine ih _ ?_
        intro c hc
        simp only [List.mem_append] at hc
        rcases hc with hc | hc
        · exact h c hc
        · exact chunk_section_minSized cfg sec acc.2 fid pg c hc
    exact key _ ([], 0) (by simp)

/-- Sample contract sentence used for concrete evaluations: 120
characters, a single paragraph with no heading markers. -/
def demoContractText : Str :=
  ("the contract payment obligations shall be remitted in full within " ++
   "thirty days of the invoice date and without deduction.").toList

/-- Claim C2: for every document text, the chunks produced by
`chunk_document` collectively preserve the body content, and a flushed
buffer shorter than `min_chunk_size` is discarded only when no other
chunks exist yet.  COUNTEREXAMPLE: on the document `"Hi."` (3 non-white
characters) the default chunker returns no chunks at all - the final
buffer is discarded although it is the only one - so the total chunk
text length 0 is smaller than the body content length 3. -/
theorem chunk_document_drops_short_text :
    chunk_document enhanced_chunking_service "Hi.".toList none none = [] ∧
    ((List.filter (fun c => !isPyWs c) "Hi.".toList).length = 3 ∧
      (chunk_document enhanced_chunking_service "Hi.".toList none
          none).foldr (fun c n => c.text.length + n) 0 = 0) := by
  decide

/-- Claim C2 (amended): every flushed buffer shorter than
`min_chunk_size` is discarded, even the first or only one, so every
chunk that `chunk_document` produces has non-empty text of at least
`min_chunk_size` characters - and consequently chunking may drop body
content (see the counterexample). -/
theorem chunk_document_respects_min_chunk_size (cfg : ChunkCfg)
    (text : Str) (fid : Option String) (pg : Option Nat) :
    ∀ c ∈ chunk_document cfg text fid pg,
      cfg.min_chunk_size ≤ c.char_count ∧ c.text ≠ [] :=
  chunk_document_minSized cfg text fid pg

set_option maxRecDepth 40000 in
/-- Claim C2 witness: the 120-character sample document yields exactly
one chunk, and the theorem applies to it. -/
theorem chunk_document_respects_min_chunk_size_witness :
    enhanced_chunking_service.min_chunk_size ≤
      (create_enhanced_chunk demoContractText 0 none none none).char_count ∧
    (create_enhanced_chunk demoContractText 0 none none none).text ≠ [] :=
  chunk_document_respects_min_chunk_size enhanced_chunking_service
    demoContractText none none
    (create_enhanced_chunk demoContractText 0 none none none) (by decide)

set_option maxRecDepth 40000 in
/-- Claim C6: configuring the chunker with `overlap >= target_chunk_size`
fails fast before any chunking work.  COUNTEREXAMPLE: the constructor
performs no validation - with `chunk_size = 100`, `overlap = 200` it
returns a configuration object, and chunking with it proceeds and
produces a chunk. -/
theorem chunker_accepts_overlap_ge_chunk_size :
    (mkEnhancedChunkingService 100 200 10).overlap = 200 ∧
    (mkEnhancedChunkingService 100 200 10).chunk_size = 100 ∧
    (chunk_document (mkEnhancedChunkingService 100 200 10)
      demoContractText none none).length = 1 := by
  decide

/-- Claim C6 (amended): `__init__` stores an `overlap >=
target_chunk_size` configuration unchanged - there is no fail-fast check
- and chunking still proceeds under it (terminating, every produced
chunk meeting the minimum size). -/
theorem mkEnhancedChunkingService_no_validation (cs ov mcs : Nat)
    (h : cs ≤ ov) (text : Str) (fid : Option String) (pg : Option Nat) :
    (mkEnhancedChunkingService cs ov mcs).chunk_size = cs ∧
    (mkEnhancedChunkingService cs ov mcs).overlap = ov ∧
    (mkEnhancedChunkingService cs ov mcs).min_chunk_size = mcs ∧
    ∀ c ∈ chunk_document (mkEnhancedChunkingService cs ov mcs) text fid pg,
      mcs ≤ c.char_count :=
  ⟨rfl, rfl, rfl, fun c hc =>
    (chunk_document_minSized (mkEnhancedChunkingService cs ov mcs) text fid
      pg c hc).1⟩

set_option maxRecDepth 40000 in
/-- Claim C6 witness: instantiation at `chunk_size = 100`,
`overlap = 200`, `min_chunk_size = 10` on the sample document, whose
single produced chunk meets the minimum size. -/
theorem mkEnhancedChunkingService_no_validation_witness :
    (mkEnhancedChunkingService 100 200 10).chunk_size = 100 ∧
    (mkEnhancedChunkingService 100 200 10).overlap = 200 ∧
    (mkEnhancedChunkingService 100 200 10).min_chunk_size = 10 ∧
    10 ≤ (create_enhanced_chunk demoContractText 0 none none
      none).char_count :=
  ⟨(mkEnhancedChunkingService_no_validation 100 200 10 (by decide)
      demoContractText none none).1,
   (mkEnhancedChunkingService_no_validation 100 200 10 (by decide)
      demoContractText none none).2.1,
   (mkEnhancedChunkingService_no_validation 100 200 10 (by decide)
      demoContractText none none).2.2.1,
   (mkEnhancedChunkingService_no_validation 100 200 10 (by decide)
      demoContractText none none).2.2.2
     (create_enhanced_chunk demoContractText 0 none none none)
     (by decide)⟩

/- ------------------------------------------------------------------
   query_rewriter.py : QueryRewriter.detect_intent (claim C8).
   ------------------------------------------------------------------ -/

/-- INTENT_PATTERNS: intent name, keyword list, question-pattern list, in
dictionary declaration order. -/
def INTENT_PATTERNS : List (String × List Str × List Str) :=
  [("payment",
    (["payment", "pay", "compensation", "fee", "invoice", "billing",
      "price", "cost", "amount", "remuneration"].map String.toList,
     ["how much", "what is the payment", "payment terms",
      "when is payment"].map String.toList)),
   ("termination",
    (["termination", "terminate", "cancel", "end", "expire", "expiration",
      "cancel", "rescind"].map String.toList,
     ["how to terminate", "termination clause",
      "when can I cancel"].map String.toList)),
   ("liability",
    (["liability", "liable", "responsible", "responsibility", "damage",
      "loss", "harm"].map String.toList,
     ["who is liable", "liability clause",
      "what are the liabilities"].map String.toList)),
   ("indemnification",
    (["indemnif", "indemnity", "hold harmless", "defend",
      "defense"].map String.toList,
     ["indemnification", "who indemnifies",
      "indemnity clause"].map String.toList)),
   ("scope",
    (["scope", "work", "services", "deliverables", "obligations",
      "duties", "responsibilities"].map String.toList,
     ["what is the scope", "scope of work", "what services",
      "deliverables"].map String.toList)),
   ("confidentiality",
    (["confidential", "non-disclosure", "nda", "proprietary", "secret",
      "privacy"].map String.toList,
     ["confidentiality", "non-disclosure",
      "what is confidential"].map String.toList)),
   ("warranty",
    (["warranty", "warrant", "guarantee", "representation",
      "warranties"].map String.toList,
     ["warranty", "what warranties", "guarantee"].map String.toList)),
   ("insurance",
    (["insurance", "coverage", "policy", "insured",
      "insurer"].map String.toList,
     ["insurance", "what insurance",
      "coverage requirements"].map String.toList)),
   ("dispute",
    (["dispute", "arbitration", "mediation", "jurisdiction",
      "governing law", "litigation"].map String.toList,
     ["dispute resolution", "how to resolve disputes",
      "jurisdiction"].map String.toList))]

/-- Score of one intent for a lowercased query: 0.3 per keyword substring
match plus 0.5 per question-pattern substring match, capped at 1.0. -/
def intent_score (ql : Str) (kws qs : List Str) : ℚ :=
  min 1 ((kws.countP (fun kw => hasSubStr kw ql) : ℚ) * (3 / 10) +
    (qs.countP (fun q => hasSubStr q ql) : ℚ) * (1 / 2))

/-- `detect_intent`: fold over the intents keeping the strictly best
score (so ties keep the earlier intent); return `(None, 0.0)` unless the
best score exceeds 0.3. -/
def detect_intent (query : Str) : Option String × ℚ :=
  let ql := lowerStr query
  let best := INTENT_PATTERNS.foldl
    (fun (b : Option String × ℚ) p =>
      let s := intent_score ql p.2.1 p.2.2
      if b.2 < s then (some p.1, s) else b)
    (none, 0)
  if 3 / 10 < best.2 then best else (none, 0)

/-- Running maximum of the scores of a scored list, seeded with `s`. -/
def maxScoreFrom (s : ℚ) (l : List (String × ℚ)) : ℚ :=
  l.foldl (fun m x => max m x.2) s

/-- Spec-side definition for claim C8: the scored intent list of a
query, in declaration order. -/
def scored_intents (query : Str) : List (String × ℚ) :=
  INTENT_PATTERNS.map (fun p =>
    (p.1, intent_score (lowerStr query) p.2.1 p.2.2))

/-- Spec-side definition for claim C8: the best intent score of a query
(all scores are nonnegative, so seeding the maximum with 0 is exact). -/
def best_intent_score (query : Str) : ℚ :=
  maxScoreFrom 0 (scored_intents query)

/-- The accumulator step of the `detect_intent` fold, over an already
scored item. -/
def bestStep (b : Option String × ℚ) (x : String × ℚ) : Option String × ℚ :=
  if b.2 < x.2 then (some x.1, x.2) else b

theorem maxScoreFrom_cons (s : ℚ) (x : String × ℚ) (l : List (String × ℚ)) :
    maxScoreFrom s (x :: l) = maxScoreFrom (max s x.2) l := rfl

theorem le_maxScoreFrom (s : ℚ) (l : List (String × ℚ)) :
    s ≤ maxScoreFrom s l := by
  induction l generalizing s with
  | nil => exact le_refl s
  | cons x l ih =>
    exact le_trans (le_max_left s x.2) (ih (max s x.2))

theorem maxScoreFrom_of_le (s : ℚ) (l : List (String × ℚ))
    (h : ∀ x ∈ l, x.2 ≤ s) : maxScoreFrom s l = s := by
  induction l generalizing s with
  | nil => rfl
  | cons x l ih =>
    rw [maxScoreFrom_cons, max_eq_left (h x (List.mem_cons_self x l))]
    exact ih s (fun y hy => h y (List.mem_cons_of_mem x hy))

theorem mem_le_maxScoreFrom (s : ℚ) (l : List (String × ℚ))
    (x : String × ℚ) (hx : x ∈ l) : x.2 ≤ maxScoreFrom s l := by
  induction l generalizing s with
  | nil => cases hx
  | cons y l ih =>
    rcases List.mem_cons.mp hx with h | h
    · subst h
      exact le_trans (le_max_right s x.2) (le_maxScoreFrom _ l)
    · exact ih (max s y.2) h

theorem bestStep_foldl_score (l : List (String × ℚ)) (b : Option String)
    (s : ℚ) : (l.foldl bestStep (b, s)).2 = maxScoreFrom s l := by
  induction l generalizing b s with
  | nil => rfl
  | cons x l ih =>
    rw [List.foldl_cons, maxScoreFrom_cons]
    unfold bestStep
    by_cases h : s < x.2
    · rw [if_pos h, max_eq_right (le_of_lt h)]
      exact ih _ _
    · rw [if_neg h, max_eq_left (not_lt.mp h)]
      exact ih _ _

theorem bestStep_foldl_of_le (l : List (String × ℚ)) (b : Option String)
    (s : ℚ) (h : ∀ x ∈ l, x.2 ≤ s) : l.foldl bestStep (b, s) = (b, s) := by
  induction l generalizing b s with
  | nil => rfl
  | cons x l ih =>
    rw [List.foldl_cons]
    unfold bestStep
    rw [if_neg (not_lt.mpr (h x (List.mem_cons_self x l)))]
    exact ih b s (fun y hy => h y (List.mem_cons_of_mem x hy))

/-- The `detect_intent` fold returns the first item attaining the running
maximum, whenever some item exceeds the seed score. -/
theorem bestStep_foldl_argmax (l : List (String × ℚ)) :
    ∀ (b : Option String) (s : ℚ), s < maxScoreFrom s l →
      ∃ i, ∃ hi : i < l.length,
        l.foldl bestStep (b, s) =
          (some (l.get ⟨i, hi⟩).1, (l.get ⟨i, hi⟩).2) ∧
        (l.get ⟨i, hi⟩).2 = maxScoreFrom s l ∧
        ∀ j, ∀ hj : j < l.length, j < i →
          (l.get ⟨j, hj⟩).2 < maxScoreFrom s l := by
  induction l with
  | nil => intro b s h; exact absurd h (lt_irrefl s)
  | cons x l ih =>
    intro b s h
    rw [maxScoreFrom_cons] at h ⊢
    rw [List.foldl_cons]
    by_cases hx : s < x.2
    · rw [max_eq_right (le_of_lt hx)] at h ⊢
      have hstep : bestStep (b, s) x = (some x.1, x.2) := by
        unfold bestStep; rw [if_pos hx]
      rw [hstep]
      by_cases hall : ∀ y ∈ l, y.2 ≤ x.2
      · have hmax : maxScoreFrom x.2 l = x.2 := maxScoreFrom_of_le _ _ hall
        refine ⟨0, Nat.succ_pos _, ?_, ?_, ?_⟩
        · rw [bestStep_foldl_of_le l (some x.1) x.2 hall]
          rfl
        · exact hmax.symm
        · intro j hj hj0; cases hj0
      · push_neg at hall
        obtain ⟨y, hy, hxy⟩ := hall
        have hlt : x.2 < maxScoreFrom x.2 l :=
          lt_of_lt_of_le hxy (mem_le_maxScoreFrom _ _ _ hy)
        obtain ⟨i, hi, heq, hmax, hearlier⟩ := ih (some x.1) x.2 hlt
        refine ⟨i + 1, Nat.succ_lt_succ hi, ?_, ?_, ?_⟩
        · exact heq
        · exact hmax
        · intro j hj hji
          cases j with
          | zero => exact hlt
          | succ j' =>
            exact hearlier j' (Nat.lt_of_succ_lt_succ hj)
              (Nat.lt_of_succ_lt_succ hji)
    · rw [max_eq_left (not_lt.mp hx)] at h ⊢
      have hstep : bestStep (b, s) x = (b, s) := by
        unfold bestStep; rw [if_neg hx]
      rw [hstep]
      obtain ⟨i, hi, heq, hmax, hearlier⟩ := ih b s h
      refine ⟨i + 1, Nat.succ_lt_succ hi, ?_, ?_, ?_⟩
      · exact heq
      · exact hmax
      · intro j hj hji
        cases j with
        | zero => exact lt_of_le_of_lt (not_lt.mp hx) h
        | succ j' =>
          exact hearlier j' (Nat.lt_of_succ_lt_succ hj)
            (Nat.lt_of_succ_lt_succ hji)

theorem detect_intent_eq_fold (query : Str) :
    detect_intent query =
      (if 3 / 10 < ((scored_intents query).foldl bestStep (none, 0)).2
       then (scored_intents query).foldl bestStep (none, 0)
       else (none, 0)) := by
  unfold detect_intent scored_intents
  rw [List.foldl_map]
  rfl

/-- Claim C8: `detect_intent` returns the intent whose score (keyword and
question-pattern matches on the lowercased query) is highest among the
declared intents, ties resolved in favor of the first-declared intent,
and returns `(None, 0.0)` whenever the best score is not above the 0.3
floor. -/
theorem detect_intent_picks_first_max (query : Str) :
    (best_intent_score query ≤ 3 / 10 → detect_intent query = (none, 0)) ∧
    (3 / 10 < best_intent_score query →
      (detect_intent query).2 = best_intent_score query ∧
      ∃ i, ∃ hi : i < (scored_intents query).length,
        (detect_intent query).1 =
          some ((scored_intents query).get ⟨i, hi⟩).1 ∧
        ((scored_intents query).get ⟨i, hi⟩).2 = best_intent_score query ∧
        ∀ j, ∀ hj : j < (scored_intents query).length, j < i →
          ((scored_intents query).get ⟨j, hj⟩).2 <
            best_intent_score query) := by
  have hscore : ((scored_intents query).foldl bestStep (none, 0)).2 =
      best_intent_score query :=
    bestStep_foldl_score (scored_intents query) none 0
  constructor
  · intro hle
    rw [detect_intent_eq_fold, hscore, if_neg (not_lt.mpr hle)]
  · intro hgt
    have hpos : (0 : ℚ) < best_intent_score query :=
      lt_trans (by norm_num) hgt
    rw [detect_intent_eq_fold, hscore, if_pos hgt]
    obtain ⟨i, hi, heq, hmax, hearlier⟩ :=
      bestStep_foldl_argmax (scored_intents query) none 0
        (by rw [show maxScoreFrom 0 (scored_intents query) =
              best_intent_score query from rfl]; exact hpos)
    refine ⟨hscore, i, hi, ?_, hmax, hearlier⟩
    rw [heq]

/-- Claim C8 witness: on the empty query every intent scores 0, the best
score is below the floor, and the theorem yields `(None, 0.0)`. -/
theorem detect_intent_picks_first_max_witness :
    detect_intent [] = (none, 0) :=
  (detect_intent_picks_first_max []).1 (by
    norm_num [best_intent_score, scored_intents, maxScoreFrom,
      INTENT_PATTERNS, intent_score, hasSubStr, lowerStr])

/- ------------------------------------------------------------------
   rag_enhanced.py : EnhancedRAGService.
   ------------------------------------------------------------------ -/

/-- Metadata of a Pinecone match.  Every field is optional; reads in the
Python code go through `metadata.get(key)` or `metadata.get(key,
default)`. -/
structure PCMeta where
  text : Option Str
  file_id : Option String
  filename : Option String
  page : Option Nat
  chunk_index : Option Nat
  section_title : Option Str
  detected_clauses : Option (List String)
deriving DecidableEq

/-- One match returned by `PineconeClient.query_vectors`. -/
structure PCMatch where
  id : String
  score : ℚ
  metadata : PCMeta
deriving DecidableEq

/-- A retrieval chunk dict as built in `retrieve_context_enhanced`
(lines 155-164); `reranked_score` is the field added later by
`_advanced_rerank`. -/
structure RetChunk where
  text : Str
  score : ℚ
  file_id : Option String
  filename : Option String
  page : Option Nat
  chunk_index : Option Nat
  section_title : Option Str
  detected_clauses : List String
  reranked_score : Option ℚ
deriving DecidableEq

/-- Chunk dict construction from a Pinecone match (the repeated block in
`retrieve_context_enhanced`). -/
def to_chunk (r : PCMatch) : RetChunk :=
  { text := r.metadata.text.getD [], score := r.score,
    file_id := r.metadata.file_id, filename := r.metadata.filename,
    page := r.metadata.page, chunk_index := r.metadata.chunk_index,
    section_title := r.metadata.section_title,
    detected_clauses := r.metadata.detected_clauses.getD [],
    reranked_score := none }

/-- LEGAL_INTENT_KEYWORDS of EnhancedRAGService, in declaration order. -/
def LEGAL_INTENT_KEYWORDS : List (String × List Str) :=
  [("payment", ["payment", "compensation", "fee", "invoice", "billing",
      "price", "cost", "amount"].map String.toList),
   ("termination", ["termination", "terminate", "cancel", "expire", "end",
      "termination clause"].map String.toList),
   ("liability", ["liability", "liable", "damage", "loss",
      "responsible"].map String.toList),
   ("indemnification", ["indemnif", "indemnity", "hold harmless",
      "defend"].map String.toList),
   ("scope", ["scope", "work", "services", "deliverables",
      "obligations"].map String.toList),
   ("confidentiality", ["confidential", "non-disclosure", "nda",
      "proprietary", "secret"].map String.toList),
   ("warranty", ["warranty", "warrant", "guarantee",
      "representation"].map String.toList),
   ("insurance", ["insurance", "coverage", "policy",
      "insured"].map String.toList),
   ("dispute", ["dispute", "arbitration", "mediation", "jurisdiction",
      "governing law"].map String.toList)]

/-- Intent detection inside `_apply_keyword_boosting`: the first intent
(in declaration order) with any keyword substring in the lowercased
query. -/
def detect_boost_intent (ql : Str) : Option String :=
  (LEGAL_INTENT_KEYWORDS.find? (fun p =>
    p.2.any (fun kw => hasSubStr kw ql))).map (fun p => p.1)

/-- Keyword boost: 0.03 per distinct query term occurring as a substring
of the lowercased chunk text. -/
def keyword_boost (query_terms : List Str) (text_lower : Str) : ℚ :=
  (query_terms.countP (fun t => hasSubStr t text_lower) : ℚ) * (3 / 100)

/-- Intent boost: 0.05 when the detected query intent is among the
chunk's detected clause tags. -/
def intent_boost (ql : Str) (detected_clauses : List String) : ℚ :=
  match detect_boost_intent ql with
  | some intent => if intent ∈ detected_clauses then 5 / 100 else 0
  | none => 0

/-- Section boost: 0.04 when the (non-empty) lowercased section title
contains some query term. -/
def section_boost (query_terms : List Str) (section_title : Str) : ℚ :=
  if section_title ≠ [] ∧
      query_terms.any (fun t => hasSubStr t section_title) then 4 / 100
  else 0

/-- The score `_apply_keyword_boosting` assigns to a single candidate:
base score plus the three additive boosts, capped at 1.0. -/
def boost_score (query : Str) (r : PCMatch) : ℚ :=
  let ql := lowerStr query
  let query_terms := (wordsOf ql).dedup
  min 1 (r.score +
    keyword_boost query_terms (lowerStr (r.metadata.text.getD [])) +
    intent_boost ql (r.metadata.detected_clauses.getD []) +
    section_boost query_terms (lowerStr (r.metadata.section_title.getD [])))

/-- `_apply_keyword_boosting`: rescore every candidate, then stable-sort
descending by score (Python `sorted(..., reverse=True)`).  The `boosts`
breakdown dict written onto each result is never read downstream and is
not modelled. -/
def apply_keyword_boosting (query : Str) (results : List PCMatch) :
    List PCMatch :=
  (results.map (fun r => { r with score := boost_score query r })).mergeSort
    (fun a b => decide (b.score ≤ a.score))

/-- Python truthiness of an optional string (`if file_id:`). -/
def fidTruthy : Option String → Bool
  | none => false
  | some s => !(s = "")

/-- Python `f"{file_id}:{section_title}"`: `None` renders as `"None"`. -/
def section_key (fid : Option String) (title : Option Str) : Str :=
  (match fid with
   | none => "None".toList
   | some s => s.toList) ++ ':' ::
  (match title with
   | none => "None".toList
   | some t => t)

/-- State of the `_enforce_diversity` loop. -/
structure DivState where
  selected : List RetChunk
  seenSections : List Str
  seenFiles : String → Nat

/-- The `seen_files[file_id] += 1` update, performed only for a truthy
file id. -/
def bumpFile (f : String → Nat) (fid : Option String) : String → Nat :=
  if fidTruthy fid then
    fun k => if k = fid.getD "" then f k + 1 else f k
  else f

/-- The `_enforce_diversity` loop: skip a chunk when its section key was
seen and the result is already at capacity, or when its (truthy) file
has reached `max_per_file`; otherwise admit it and stop once `max_chunks`
chunks are selected. -/
def div_loop (maxChunks maxPerFile : Nat) :
    List RetChunk → DivState → DivState
  | [], st => st
  | c :: cs, st =>
    if section_key c.file_id c.section_title ∈ st.seenSections ∧
        maxChunks ≤ st.selected.length then
      div_loop maxChunks maxPerFile cs st
    else if fidTruthy c.file_id ∧
        maxPerFile ≤ st.seenFiles (c.file_id.getD "") then
      div_loop maxChunks maxPerFile cs st
    else
      let st' : DivState :=
        { selected := st.selected ++ [c],
          seenSections := section_key c.file_id c.section_title ::
            st.seenSections,
          seenFiles := bumpFile st.seenFiles c.file_id }
      if maxChunks ≤ st'.selected.length then st'
      else div_loop maxChunks maxPerFile cs st'

/-- `_enforce_diversity`, with `max_per_file = max(1, max_chunks // 2)`. -/
def enforce_diversity (chunks : List RetChunk) (max_chunks : Nat) :
    List RetChunk :=
  (div_loop max_chunks (max 1 (max_chunks / 2)) chunks
    { selected := [], seenSections := [], seenFiles := fun _ => 0 }).selected

/-- The curated legal phrases of `_advanced_rerank`. -/
def legal_phrases : List Str :=
  ["payment terms", "termination clause", "scope of work", "liability",
   "indemnification", "confidentiality"].map String.toList

/-- Rerank signal 1: exact-term overlap ratio, weighted 0.2. -/
def term_score (query_terms : List Str) (text_lower : Str) : ℚ :=
  (query_terms.countP (fun t => hasSubStr t text_lower) : ℚ) /
    (max query_terms.length 1 : ℚ) * (2 / 10)

/-- Rerank signal 2: 0.1 per curated legal phrase present in both the
query and the chunk text. -/
def phrase_score (ql : Str) (text_lower : Str) : ℚ :=
  (legal_phrases.countP (fun p =>
    hasSubStr p ql && hasSubStr p text_lower) : ℚ) * (1 / 10)

/-- Rerank signal 3: section-title token-overlap ratio, weighted 0.15. -/
def rr_section_score (query_terms : List Str) (stl : Str) : ℚ :=
  if stl ≠ [] then
    (query_terms.countP (fun t => t ∈ (wordsOf stl).dedup) : ℚ) /
      (max query_terms.length 1 : ℚ) * (15 / 100)
  else 0

/-- Rerank signal 4: positional bonus for the first 10 chunks. -/
def position_score (ci : Nat) : ℚ := if ci < 10 then 5 / 100 else 0

/-- The reranked score `_advanced_rerank` computes for one chunk, given
the chunk's section title string and chunk index (the code reads both
through `chunk.get(...)` and crashes when they are `None`; see
`advanced_rerank`): base score plus the four signals, capped at 1.0. -/
def rerank_score (query : Str) (c : RetChunk) (st : Str) (ci : Nat) : ℚ :=
  let ql := lowerStr query
  let query_terms := (wordsOf ql).dedup
  min 1 (c.score + term_score query_terms (lowerStr c.text) +
    phrase_score ql (lowerStr c.text) +
    rr_section_score query_terms (lowerStr st) + position_score ci)

/-- `_advanced_rerank`.  The Python code evaluates
`chunk.get("section_title", "").lower()` and `chunk.get("chunk_index",
0) < 10`; both keys are always present in the chunk dicts (set from
`metadata.get(...)`, possibly to `None`), so a `None` section title
raises `AttributeError` and a `None` chunk index raises `TypeError`.
The caller catches the exception, modelled as `Except.error` (the
partial in-place `reranked_score` mutation before the raise is dropped
by the caller's fallback and is not modelled). -/
def advanced_rerank (query : Str) (chunks : List RetChunk) :
    Except Unit (List RetChunk) :=
  if chunks.any (fun c =>
      c.section_title.isNone || c.chunk_index.isNone) then
    .error ()
  else
    .ok (((chunks.map (fun c =>
      { c with reranked_score := some (rerank_score query c
          (c.section_title.getD []) (c.chunk_index.getD 0)) })).mergeSort
      (fun a b => decide ((b.reranked_score.getD b.score) ≤
        (a.reranked_score.getD a.score)))))

/-- The adaptive-fallback collection loop (lines 177-192): append each
result with score at least the 0.1 adaptive threshold, breaking once
`top_k` chunks are collected (the break test runs after the append). -/
def fallback_loop (top_k : Nat) :
    List PCMatch → List RetChunk → List RetChunk
  | [], acc => acc
  | r :: rs, acc =>
    if (1 : ℚ) / 10 ≤ r.score then
      let acc' := acc ++ [to_chunk r]
      if top_k ≤ acc'.length then acc'
      else fallback_loop top_k rs acc'
    else fallback_loop top_k rs acc

/-- Steps 4-7 of `retrieve_context_enhanced` (lines 144-236), applied to
the non-empty candidate list obtained from the vector store: keyword
boosting, min-score filtering with the adaptive fallback ladder,
diversity enforcement, and reranking with truncation to `top_k`. -/
def process_results (query : Str) (top_k : Nat) (min_score : ℚ)
    (use_hybrid enforce_div : Bool) (results0 : List PCMatch) :
    List RetChunk :=
  let results :=
    if use_hybrid then apply_keyword_boosting query results0 else results0
  let relevant :=
    (results.filter (fun r => min_score ≤ r.score)).map to_chunk
  let relevant :=
    if relevant.isEmpty ∧ ¬ results.isEmpty then
      let fb := fallback_loop top_k results []
      if fb.isEmpty then (results.take top_k).map to_chunk else fb
    else relevant
  let relevant :=
    if enforce_div ∧ ¬ relevant.isEmpty then
      enforce_diversity relevant top_k
    else relevant
  if relevant.isEmpty then relevant
  else
    match advanced_rerank query relevant with
    | .ok reranked =>
      if ¬ reranked.isEmpty then reranked.take top_k
      else relevant.take top_k
    | .error _ => relevant.take top_k

/-- The metadata filter built in step 2 from the `file_ids` argument.
A single id becomes an equality filter and several ids an `$in` filter;
both select exactly the vectors whose `file_id` is in the list, so the
filter is modelled by the id list itself. -/
def build_filter (file_ids : List String) : Option (List String) :=
  if file_ids.isEmpty then none else some file_ids

/-- Steps 2-3 of `retrieve_context_enhanced`: query the store (an oracle
taking the optional filter and the requested candidate count
`initial_k = top_k * 3` with diversity, else `top_k * 2`) and, when a
filtered query comes back empty, retry once without the filter. -/
def retrieved_candidates (store : Option (List String) → Nat → List PCMatch)
    (file_ids : List String) (top_k : Nat) (enforce_div : Bool) :
    List PCMatch :=
  let initial_k := if enforce_div then top_k * 3 else top_k * 2
  let fd := build_filter file_ids
  let results := store fd initial_k
  if results.isEmpty ∧ fd.isSome then store none initial_k else results

/-- `retrieve_context_enhanced`, with the embedding step and the vector
store abstracted into the `store` oracle (query rewriting and embedding
only influence the vector sent to the store; the keyword stages below
all use the original `query`, as in the source).  An empty candidate
list - after the unfiltered retry - returns `[]` (the index-stats
logging has no effect on the result). -/
def retrieve_context_enhanced
    (store : Option (List String) → Nat → List PCMatch) (query : Str)
    (file_ids : List String) (top_k : Nat) (min_score : ℚ)
    (use_hybrid enforce_div : Bool) : List RetChunk :=
  let results := retrieved_candidates store file_ids top_k enforce_div
  if results.isEmpty then []
  else process_results query top_k min_score use_hybrid enforce_div results

/- ------------------------------------------------------------------
   openrouter.py / embedding.py : embedding calls (claim C7).
   ------------------------------------------------------------------ -/

/-- `OpenRouterClient.get_embedding`, with the HTTP request (including
its bounded retry loop) collapsed into the `net` oracle: the oracle's
error is the exception the retry loop ultimately raises.  Empty text
after stripping short-circuits BEFORE any network call and returns a
1536-dimensional zero vector; otherwise the stripped text is truncated
to 30000 characters and sent to the provider. -/
def get_embedding (net : Str → Except Unit (List ℚ)) (text : Str) :
    Except Unit (List ℚ) :=
  let t := pyStrip text
  if t = [] then .ok (List.replicate 1536 0)
  else net (t.take 30000)

/-- `EmbeddingService.generate_embedding`: empty or whitespace-only text
is rejected with `None`; otherwise the client call is made and any
exception is converted to `None`. -/
def generate_embedding (net : Str → Except Unit (List ℚ)) (text : Str) :
    Option (List ℚ) :=
  if text = [] ∨ pyStrip text = [] then none
  else
    match get_embedding net text with
    | .ok e => some e
    | .error _ => none

/- ------------------------------------------------------------------
   rag_enhanced.py : _verify_answer (claim C9).
   ------------------------------------------------------------------ -/

/-- The JSON object the verifier asks the model for; only the
`revised_answer` field is read by `_verify_answer` (the rest of the
parsed dict is carried through opaquely into the `verification` field
and is not inspected). -/
structure VerData where
  revised_answer : Option Str
deriving DecidableEq

/-- Verification outcome attached to the returned answer: a parsed
payload, or one of the two fallback status markers. -/
inductive VerOutcome where
  | parsed (d : VerData)
  | manual_review_needed
  | verification_failed
deriving DecidableEq

/-- Index of the first occurrence of `c` in `s` (Python `str.find`),
as an option. -/
def first_index (c : Char) (s : Str) : Option Nat :=
  s.findIdx? (fun d => d = c)

/-- Index of the last occurrence of `c` in `s` (Python `str.rfind`). -/
def last_index (c : Char) (s : Str) : Option Nat :=
  (first_index c s.reverse).map (fun i => s.length - 1 - i)

/-- The slice `text[text.find("{") : text.rfind("}") + 1]` used to cut
the JSON payload out of the model output (an empty slice when the start
is not before the end, as in Python). -/
def extract_json_slice (s : Str) : Str :=
  match first_index '\x7b' s, last_index '\x7d' s with
  | some a, some b => (s.drop a).take (b + 1 - a)
  | _, _ => []

/-- `_verify_answer`, with the chat completion and `json.loads` as
oracles.  A failing model call, or `json.loads` raising on the sliced
payload, lands in the outer `except` and yields `verification_failed`;
output without both braces yields `manual_review_needed`; a parsed
payload substitutes `revised_answer` (defaulting to the draft). -/
def verify_answer (llm : Except Unit Str) (parse : Str → Option VerData)
    (draft : Str) : Str × VerOutcome :=
  match llm with
  | .error _ => (draft, VerOutcome.verification_failed)
  | .ok vtext =>
    if hasSubStr ['\x7b'] vtext ∧ hasSubStr ['\x7d'] vtext then
      match parse (extract_json_slice vtext) with
      | some d =>
        (d.revised_answer.getD draft, VerOutcome.parsed d)
      | none => (draft, VerOutcome.verification_failed)
    else (draft, VerOutcome.manual_review_needed)

/- ------------------------------------------------------------------
   indexing.py : index_file_to_pinecone vector preparation (claim C5).
   ------------------------------------------------------------------ -/

/-- An enriched chunk as produced by `embed_chunks`: the chunk dict plus
the `embedding`/`has_embedding` fields. -/
structure EmbChunk where
  text : Str
  char_count : Option Nat
  section_title : Option Str
  page : Option Nat
  detected_clauses : Option (List String)
  embedding : Option (List ℚ)
  has_embedding : Bool
deriving DecidableEq

/-- Metadata attached to an upserted vector. -/
structure UpsertMeta where
  file_id : String
  filename : String
  text : Str
  chunk_index : Nat
  char_count : Nat
  page : Option Nat
  section_title : Option Str
  detected_clauses : Option (List String)
deriving DecidableEq

/-- A vector sent to `PineconeClient.upsert_vectors`. -/
structure PCVector where
  id : String
  values : List ℚ
  metadata : UpsertMeta
deriving DecidableEq

/-- Normalization of an embedding to the fixed 1536 dimension (truncate
when longer, zero-pad when shorter). -/
def fit_dimension (emb : List ℚ) : List ℚ :=
  if 1536 < emb.length then emb.take 1536
  else if emb.length < 1536 then
    emb ++ List.replicate (1536 - emb.length) 0
  else emb

/-- Construction of one upserted vector from a good chunk at enumerate
index `i`. -/
def mk_vector (upload_id filename : String) (i : Nat) (ch : EmbChunk)
    (emb : List ℚ) : PCVector :=
  { id := upload_id ++ "_chunk_" ++ toString i,
    values := fit_dimension emb,
    metadata :=
      { file_id := upload_id, filename := filename,
        text := ch.text.take 1000, chunk_index := i,
        char_count := ch.char_count.getD ch.text.length,
        page := match ch.page with
          | some p => if p ≠ 0 then some p else none
          | none => none,
        section_title := match ch.section_title with
          | some t => if t ≠ [] then some t else none
          | none => none,
        detected_clauses := match ch.detected_clauses with
          | some l => if l ≠ [] then some l else none
          | none => none } }

/-- The vector-preparation loop of `index_file_to_pinecone` (lines
83-141): walk the enriched chunks with their enumerate index, skipping
any chunk without `has_embedding`, with a `None` or empty embedding, or
with an all-zero embedding; otherwise normalize the dimension and emit
the vector. -/
def prepare_vectors (upload_id filename : String) :
    Nat → List EmbChunk → List PCVector
  | _, [] => []
  | i, ch :: rest =>
    if ¬ ch.has_embedding then
      prepare_vectors upload_id filename (i + 1) rest
    else
      match ch.embedding with
      | none => prepare_vectors upload_id filename (i + 1) rest
      | some emb =>
        if emb.isEmpty then
          prepare_vectors upload_id filename (i + 1) rest
        else if emb.all (fun v => v = 0) then
          prepare_vectors upload_id filename (i + 1) rest
        else
          mk_vector upload_id filename i ch emb ::
            prepare_vectors upload_id filename (i + 1) rest

/-- The vectors `index_file_to_pinecone` upserts for a chunk list (upsert
happens exactly when this list is non-empty). -/
def upserted_vectors (upload_id filename : String)
    (chunks : List EmbChunk) : List PCVector :=
  prepare_vectors upload_id filename 0 chunks

/-- The skip guard of the loop: a chunk passes exactly when it has a
non-empty embedding with at least one nonzero entry. -/
def good_embedding (ch : EmbChunk) : Bool :=
  ch.has_embedding &&
    (match ch.embedding with
     | none => false
     | some emb => !emb.isEmpty && !emb.all (fun v => v = 0))

/- ------------------------------------------------------------------
   Claim C4: boost and rerank scores lie in [base, 1].
   ------------------------------------------------------------------ -/

theorem keyword_boost_nonneg (qt : List Str) (tl : Str) :
    0 ≤ keyword_boost qt tl := by
  unfold keyword_boost
  positivity

theorem intent_boost_nonneg (ql : Str) (dc : List String) :
    0 ≤ intent_boost ql dc := by
  unfold intent_boost
  cases detect_boost_intent ql with
  | none => exact le_refl 0
  | some intent =>
    dsimp only
    split <;> norm_num

theorem section_boost_nonneg (qt : List Str) (stl : Str) :
    0 ≤ section_boost qt stl := by
  unfold section_boost
  split <;> norm_num

theorem term_score_nonneg (qt : List Str) (tl : Str) :
    0 ≤ term_score qt tl := by
  unfold term_score
  positivity

theorem phrase_score_nonneg (ql : Str) (tl : Str) :
    0 ≤ phrase_score ql tl := by
  unfold phrase_score
  positivity

theorem rr_section_score_nonneg (qt : List Str) (stl : Str) :
    0 ≤ rr_section_score qt stl := by
  unfold rr_section_score
  split
  · positivity
  · exact le_refl 0

theorem position_score_nonneg (ci : Nat) : 0 ≤ position_score ci := by
  unfold position_score
  split <;> norm_num

/-- Claim C4: for every query and candidate with base similarity score
in [0,1], the boosted score of `_apply_keyword_boosting` and the
reranked score of `_advanced_rerank` are each at least the base score
and at most 1: the boosts are additive and nonnegative, capped so the
score stays in [0,1], and never lower a score below its base value. -/
theorem boost_and_rerank_scores_bounded (query : Str) (r : PCMatch)
    (c : RetChunk) (st : Str) (ci : Nat)
    (hr0 : 0 ≤ r.score) (hr1 : r.score ≤ 1)
    (hc0 : 0 ≤ c.score) (hc1 : c.score ≤ 1) :
    (r.score ≤ boost_score query r ∧ boost_score query r ≤ 1 ∧
      0 ≤ boost_score query r) ∧
    (c.score ≤ rerank_score query c st ci ∧
      rerank_score query c st ci ≤ 1 ∧ 0 ≤ rerank_score query c st ci) := by
  constructor
  · unfold boost_score
    have h1 := keyword_boost_nonneg ((wordsOf (lowerStr query)).dedup)
      (lowerStr (r.metadata.text.getD []))
    have h2 := intent_boost_nonneg (lowerStr query)
      (r.metadata.detected_clauses.getD [])
    have h3 := section_boost_nonneg ((wordsOf (lowerStr query)).dedup)
      (lowerStr (r.metadata.section_title.getD []))
    refine ⟨le_min hr1 (by linarith), min_le_left _ _, ?_⟩
    exact le_min (by norm_num) (by linarith)
  · unfold rerank_score
    have h1 := term_score_nonneg ((wordsOf (lowerStr query)).dedup)
      (lowerStr c.text)
    have h2 := phrase_score_nonneg (lowerStr query) (lowerStr c.text)
    have h3 := rr_section_score_nonneg ((wordsOf (lowerStr query)).dedup)
      (lowerStr st)
    have h4 := position_score_nonneg ci
    refine ⟨le_min hc1 (by linarith), min_le_left _ _, ?_⟩
    exact le_min (by norm_num) (by linarith)

/-- Sample candidate with base score 1/2, used by the claim C4
witness. -/
def demoMatchHalf : PCMatch :=
  { id := "v", score := 1 / 2,
    metadata :=
      { text := some "payment".toList, file_id := some "f",
        filename := none, page := none, chunk_index := some 0,
        section_title := some "s".toList,
        detected_clauses := some ["payment"] } }

/-- Claim C4 witness: instantiation at the empty query and the sample
candidate with base score 1/2 (all four hypotheses discharged
numerically). -/
theorem boost_and_rerank_scores_bounded_witness :
    (demoMatchHalf.score ≤ boost_score [] demoMatchHalf ∧
      boost_score [] demoMatchHalf ≤ 1 ∧
      0 ≤ boost_score [] demoMatchHalf) ∧
    ((to_chunk demoMatchHalf).score ≤
        rerank_score [] (to_chunk demoMatchHalf) "s".toList 0 ∧
      rerank_score [] (to_chunk demoMatchHalf) "s".toList 0 ≤ 1 ∧
      0 ≤ rerank_score [] (to_chunk demoMatchHalf) "s".toList 0) :=
  boost_and_rerank_scores_bounded [] demoMatchHalf
    (to_chunk demoMatchHalf) "s".toList 0
    (by norm_num [demoMatchHalf]) (by norm_num [demoMatchHalf])
    (by norm_num [to_chunk, demoMatchHalf])
    (by norm_num [to_chunk, demoMatchHalf])

/- ------------------------------------------------------------------
   Claim C7: empty-text embedding behaviour.
   ------------------------------------------------------------------ -/

set_option maxRecDepth 40000 in
/-- Claim C7: for every empty or whitespace-only input text, the
embedding operation rejects the input with a 'no embedding' failure, not
a zero vector.  COUNTEREXAMPLE: `OpenRouterClient.get_embedding` - one
of the two operations the claim covers - returns a 1536-dimensional
all-zero vector as a SUCCESS on whitespace-only input, before any
network call (the oracle here always fails, yet the call succeeds), so a
caller of `get_embedding` cannot distinguish this from a valid
embedding. -/
theorem get_embedding_zero_vector_on_whitespace :
    get_embedding (fun _ => .error ()) " ".toList =
      .ok (List.replicate 1536 (0 : ℚ)) ∧
    (List.replicate 1536 (0 : ℚ)).all (fun v => v = 0) = true := by
  constructor
  · have hs : pyStrip " ".toList = [] := by decide
    show (if pyStrip " ".toList = [] then
        (.ok (List.replicate 1536 (0 : ℚ)) : Except Unit (List ℚ))
      else (fun _ => .error ()) ((pyStrip " ".toList).take 30000)) =
      .ok (List.replicate 1536 (0 : ℚ))
    rw [hs, if_pos rfl]
  · decide

/-- Claim C7 (amended): `EmbeddingService.generate_embedding` rejects
empty or whitespace-only text with `None` (a distinguishable failure,
before any network call), while `OpenRouterClient.get_embedding` called
directly on such text substitutes a successful all-zero 1536-vector
instead of failing. -/
theorem embedding_empty_text_behaviour
    (net : Str → Except Unit (List ℚ)) (text : Str)
    (h : pyStrip text = []) :
    generate_embedding net text = none ∧
    get_embedding net text = .ok (List.replicate 1536 0) := by
  constructor
  · unfold generate_embedding
    rw [if_pos (Or.inr h)]
  · show (if pyStrip text = [] then
        (.ok (List.replicate 1536 (0 : ℚ)) : Except Unit (List ℚ))
      else net ((pyStrip text).take 30000)) =
      .ok (List.replicate 1536 0)
    rw [h, if_pos rfl]

/-- Claim C7 witness: instantiation at a single-space input and the
always-failing network oracle. -/
theorem embedding_empty_text_behaviour_witness :
    generate_embedding (fun _ => .error ()) " ".toList = none ∧
    get_embedding (fun _ => .error ()) " ".toList =
      .ok (List.replicate 1536 0) :=
  embedding_empty_text_behaviour (fun _ => .error ()) " ".toList (by decide)

/- ------------------------------------------------------------------
   Claim C9: verification-failure handling.
   ------------------------------------------------------------------ -/

/-- Claim C9: if the verification model's output cannot be parsed as
JSON, the verifier returns the unmodified draft with a
`manual_review_needed` status.  COUNTEREXAMPLE: output that contains
braces but is not valid JSON (`json.loads` raises, modelled by the
always-failing parse oracle) is returned with status
`verification_failed`, not `manual_review_needed` - the
`manual_review_needed` status is only produced when the output contains
no braces at all. -/
theorem verify_answer_unparsable_braces_status :
    verify_answer (.ok "\x7bbad\x7d".toList) (fun _ => none)
        "draft".toList =
      ("draft".toList, VerOutcome.verification_failed) ∧
    VerOutcome.verification_failed ≠ VerOutcome.manual_review_needed := by
  constructor
  · rfl
  · decide

/-- Claim C9 (amended): the verifier never blocks answer delivery - on
any parse failure the unmodified draft is returned - but the status
depends on the failure: a failing model call or a brace-containing
output that `json.loads` rejects yields `verification_failed`, while
`manual_review_needed` is produced exactly when the output contains no
JSON-object braces; a successfully parsed payload substitutes its
`revised_answer` (defaulting to the draft). -/
theorem verify_answer_preserves_draft (llm : Except Unit Str)
    (parse : Str → Option VerData) (draft : Str) :
    (∀ e, llm = .error e →
      verify_answer llm parse draft =
        (draft, VerOutcome.verification_failed)) ∧
    (∀ t, llm = .ok t →
      ¬ (hasSubStr ['\x7b'] t = true ∧ hasSubStr ['\x7d'] t = true) →
      verify_answer llm parse draft =
        (draft, VerOutcome.manual_review_needed)) ∧
    (∀ t, llm = .ok t →
      (hasSubStr ['\x7b'] t = true ∧ hasSubStr ['\x7d'] t = true) →
      parse (extract_json_slice t) = none →
      verify_answer llm parse draft =
        (draft, VerOutcome.verification_failed)) ∧
    (∀ t d, llm = .ok t →
      (hasSubStr ['\x7b'] t = true ∧ hasSubStr ['\x7d'] t = true) →
      parse (extract_json_slice t) = some d →
      verify_answer llm parse draft =
        (d.revised_answer.getD draft, VerOutcome.parsed d)) := by
  refine ⟨?_, ?_, ?_, ?_⟩
  · intro e he
    subst he
    rfl
  · intro t ht hbr
    subst ht
    unfold verify_answer
    dsimp only
    rw [if_neg hbr]
  · intro t ht hbr hp
    subst ht
    unfold verify_answer
    dsimp only
    rw [if_pos hbr, hp]
  · intro t d ht hbr hp
    subst ht
    unfold verify_answer
    dsimp only
    rw [if_pos hbr, hp]

/-- Claim C9 witness: instantiation at a failing model call. -/
theorem verify_answer_preserves_draft_witness :
    verify_answer (.error ()) (fun _ => none) "draft".toList =
      ("draft".toList, VerOutcome.verification_failed) :=
  (verify_answer_preserves_draft (.error ()) (fun _ => none)
    "draft".toList).1 () rfl

/- ------------------------------------------------------------------
   Claim C5: all-zero embeddings and the indexing skip guard.
   The 1536-element literals make terms deep; raise the recursion
   limit for the rest of the file.
   ------------------------------------------------------------------ -/

set_option maxRecDepth 100000

/-- A chunk carrying an embedding whose first 1536 entries are zero and
whose only nonzero entry sits beyond position 1536. -/
def overlongZeroChunk : EmbChunk :=
  { text := "x".toList, char_count := none, section_title := none,
    page := none, detected_clauses := none,
    embedding := some (List.replicate 1536 0 ++ [1]),
    has_embedding := true }

theorem prepare_vectors_cons_good (uid fn : String) (i : Nat)
    (ch : EmbChunk) (rest : List EmbChunk) (emb : List ℚ)
    (h1 : ch.has_embedding = true) (h2 : ch.embedding = some emb)
    (h3 : emb.isEmpty = false)
    (h4 : emb.all (fun v => v = 0) = false) :
    prepare_vectors uid fn i (ch :: rest) =
      mk_vector uid fn i ch emb :: prepare_vectors uid fn (i + 1) rest := by
  simp [prepare_vectors, h1, h2, h3, h4]

theorem prepare_vectors_cons_skip (uid fn : String) (i : Nat)
    (ch : EmbChunk) (rest : List EmbChunk)
    (h : good_embedding ch = false) :
    prepare_vectors uid fn i (ch :: rest) =
      prepare_vectors uid fn (i + 1) rest := by
  unfold good_embedding at h
  by_cases h1 : ch.has_embedding = true
  · rw [h1, Bool.true_and] at h
    cases hemb : ch.embedding with
    | none => simp [prepare_vectors, hemb]
    | some emb =>
      rw [hemb] at h
      by_cases h3 : emb.isEmpty = true
      · simp [prepare_vectors, h1, hemb, h3]
      · have h4 : emb.all (fun v => v = 0) = true := by
          rcases Bool.and_eq_false_iff.mp h with h' | h'
          · exact absurd (by simpa using h') h3
          · simpa using h'
        simp [prepare_vectors, h1, hemb, h3, h4]
  · have h1' : ch.has_embedding = false := by
      revert h1; cases ch.has_embedding <;> simp
    simp [prepare_vectors, h1']

theorem good_embedding_iff (ch : EmbChunk) :
    good_embedding ch = true ↔
      ch.has_embedding = true ∧ ∃ emb, ch.embedding = some emb ∧
        emb.isEmpty = false ∧ emb.all (fun v => v = 0) = false := by
  unfold good_embedding
  cases hemb : ch.embedding with
  | none => simp [hemb]
  | some emb =>
    simp only [hemb, Bool.and_eq_true, Bool.not_eq_true']
    constructor
    · rintro ⟨ha, hb, hc⟩
      exact ⟨ha, emb, rfl, hb, hc⟩
    · rintro ⟨ha, e, he, hb, hc⟩
      cases he
      exact ⟨ha, hb, hc⟩

/-- Normalizing the overlong counterexample embedding truncates away its
only nonzero entry.  (The proofs in this block avoid calling `simp` on
goals containing `List.replicate 1536`, which the default simp procs
would expand into a 1536-element literal.) -/
theorem fit_dimension_overlong :
    fit_dimension (List.replicate 1536 (0 : ℚ) ++ [1]) =
      List.replicate 1536 0 := by
  unfold fit_dimension
  rw [if_pos (by
    rw [List.length_append, List.length_replicate, List.length_singleton]
    omega)]
  rw [List.take_append_eq_append_take, List.take_replicate,
    List.length_replicate, Nat.min_self, Nat.sub_self, List.take_zero,
    List.append_nil]

/-- Claim C5: an all-zero embedding vector is never upserted into the
vector index.  COUNTEREXAMPLE: a 1537-dimensional embedding whose only
nonzero entry is the last one passes the all-zero skip check, but the
subsequent truncation to 1536 dimensions cuts that entry off, so an
all-zero vector is upserted. -/
theorem all_zero_vector_upserted_after_truncation :
    ((upserted_vectors "u" "f" [overlongZeroChunk]).map
        (fun v => v.values)) = [List.replicate 1536 (0 : ℚ)] ∧
    (List.replicate 1536 (0 : ℚ)).all (fun v => v = 0) = true ∧
    ((List.replicate 1536 (0 : ℚ) ++ [1]).all (fun v => v = 0)) = false := by
  have hzero : (List.replicate 1536 (0 : ℚ)).all (fun v => v = 0) = true := by
    rw [List.all_eq_true]
    intro x hx
    rw [List.eq_of_mem_replicate hx]
    decide
  have hnz : ((List.replicate 1536 (0 : ℚ) ++ [1]).all
      (fun v => v = 0)) = false := by
    rw [List.all_eq_false]
    exact ⟨1, List.mem_append_right _ (List.mem_singleton.mpr rfl),
      by decide⟩
  have hne : (List.replicate 1536 (0 : ℚ) ++ [1]) ≠ [] := by
    intro hcon
    have hlen := congrArg List.length hcon
    rw [List.length_append, List.length_replicate, List.length_singleton,
      List.length_nil] at hlen
    omega
  refine ⟨?_, hzero, hnz⟩
  rw [upserted_vectors, prepare_vectors_cons_good "u" "f" 0
    overlongZeroChunk [] (List.replicate 1536 0 ++ [1]) rfl rfl
    (List.isEmpty_eq_false.mpr hne) hnz]
  simp only [prepare_vectors, List.map_cons, List.map_nil, mk_vector]
  rw [fit_dimension_overlong]

theorem fit_dimension_spec (emb : List ℚ) (hlen : emb.length ≤ 1536)
    (hne : emb.isEmpty = false)
    (hnz : emb.all (fun v => v = 0) = false) :
    (fit_dimension emb).length = 1536 ∧
    (fit_dimension emb).any (fun q => decide (q ≠ 0)) = true := by
  obtain ⟨x, hx, hx0⟩ : ∃ x ∈ emb, ¬ x = 0 := by
    rcases List.all_eq_false.mp hnz with ⟨x, hx, hx0⟩
    exact ⟨x, hx, by simpa using hx0⟩
  have hfit : fit_dimension emb =
      emb ++ List.replicate (1536 - emb.length) 0 := by
    unfold fit_dimension
    rw [if_neg (by omega)]
    rcases Nat.lt_or_ge emb.length 1536 with hl | hl
    · rw [if_pos hl]
    · have : emb.length = 1536 := le_antisymm hlen hl
      rw [if_neg (by omega), this]
      simp
  constructor
  · rw [hfit]
    simp only [List.length_append, List.length_replicate]
    omega
  · rw [hfit, List.any_eq_true]
    exact ⟨x, List.mem_append_left _ hx, by simpa using hx0⟩

theorem prepare_vectors_spec (chunks : List EmbChunk) :
    ∀ (uid fn : String) (i : Nat),
      (∀ ch ∈ chunks, ∀ e, ch.embedding = some e → e.length ≤ 1536) →
      (prepare_vectors uid fn i chunks).length =
        chunks.countP good_embedding ∧
      ∀ v ∈ prepare_vectors uid fn i chunks,
        v.values.length = 1536 ∧
        v.values.any (fun q => decide (q ≠ 0)) = true := by
  induction chunks with
  | nil => intro uid fn i _; simp [prepare_vectors]
  | cons ch rest ih =>
    intro uid fn i h
    have hrest := ih uid fn (i + 1)
      (fun c hc e he => h c (List.mem_cons_of_mem ch hc) e he)
    by_cases hg : good_embedding ch = true
    · obtain ⟨h1, emb, h2, h3, h4⟩ := (good_embedding_iff ch).mp hg
      rw [prepare_vectors_cons_good uid fn i ch rest emb h1 h2 h3 h4]
      constructor
      · rw [List.length_cons, (hrest).1, List.countP_cons, hg]
        simp
      · intro v hv
        rcases List.mem_cons.mp hv with hv | hv
        · subst hv
          have hlen : emb.length ≤ 1536 :=
            h ch (List.mem_cons_self ch rest) emb h2
          exact fit_dimension_spec emb hlen h3 h4
        · exact (hrest).2 v hv
    · have hg' : good_embedding ch = false := by
        revert hg; cases good_embedding ch <;> simp
      rw [prepare_vectors_cons_skip uid fn i ch rest hg']
      refine ⟨?_, (hrest).2⟩
      rw [(hrest).1, List.countP_cons, hg']
      simp

/-- Claim C5 (amended): every chunk whose embedding is missing, empty or
all-zero is skipped by the indexing loop (the upserted vector count
equals the count of chunks passing the guard), and - provided no
embedding is longer than the index dimension 1536, so that the lossy
truncation path is not taken - every upserted vector is 1536-dimensional
with at least one nonzero entry; with an overlong embedding the
truncation can still produce an all-zero vector (see the
counterexample). -/
theorem upserted_vectors_skip_bad_embeddings (uid fn : String)
    (chunks : List EmbChunk)
    (h : ∀ ch ∈ chunks, ∀ e, ch.embedding = some e → e.length ≤ 1536) :
    (upserted_vectors uid fn chunks).length =
      chunks.countP good_embedding ∧
    ∀ v ∈ upserted_vectors uid fn chunks,
      v.values.length = 1536 ∧
      v.values.any (fun q => decide (q ≠ 0)) = true :=
  prepare_vectors_spec chunks uid fn 0 h

/-- Chunk with a valid short embedding, used by the claim C5 witness. -/
def goodShortChunk : EmbChunk :=
  { text := "pay".toList, char_count := some 3, section_title := none,
    page := none, detected_clauses := none, embedding := some [1, 0],
    has_embedding := true }

/-- Chunk with a missing embedding, used by the claim C5 witness. -/
def noEmbChunk : EmbChunk :=
  { text := "skip".toList, char_count := none, section_title := none,
    page := none, detected_clauses := none, embedding := none,
    has_embedding := false }

/-- Claim C5 witness: instantiation on one good and one embedding-less
chunk (the length hypothesis discharged by case analysis): the
embedding-less chunk is skipped, so exactly one vector is upserted. -/
theorem upserted_vectors_skip_bad_embeddings_witness :
    (upserted_vectors "u" "f" [goodShortChunk, noEmbChunk]).length =
      ([goodShortChunk, noEmbChunk].countP good_embedding) :=
  (upserted_vectors_skip_bad_embeddings "u" "f"
    [goodShortChunk, noEmbChunk]
    (by
      intro ch hch e he
      rcases List.mem_cons.mp hch with h1 | h1
      · subst h1
        have : ([1, 0] : List ℚ) = e := Option.some.inj he
        rw [← this]
        norm_num
      · rcases List.mem_cons.mp h1 with h2 | h2
        · subst h2
          cases he
        · cases h2)).1

/- ------------------------------------------------------------------
   Claim C3: diversity enforcement.
   ------------------------------------------------------------------ -/

/-- Number of chunks in a list carrying a given file id. -/
def file_count (fid : String) (l : List RetChunk) : Nat :=
  l.countP (fun c => c.file_id = some fid)

theorem div_loop_length_le (maxChunks maxPerFile : Nat)
    (cs : List RetChunk) :
    ∀ st : DivState, st.selected.length < maxChunks →
      (div_loop maxChunks maxPerFile cs st).selected.length ≤ maxChunks := by
  induction cs with
  | nil => intro st h; exact le_of_lt h
  | cons c rest ih =>
    intro st h
    unfold div_loop
    split
    · exact ih st h
    · split
      · exact ih st h
      · dsimp only
        split
        · rename_i hstop
          simpa using Nat.succ_le_of_lt h
        · rename_i hstop
          refine ih _ ?_
          simp only [List.length_append, List.length_cons,
            List.length_nil] at hstop ⊢
          omega

/-- Loop invariant for the per-file cap: the seen-files counters agree
with the selected counts and stay at most `maxPerFile`. -/
def DivInv (maxPerFile : Nat) (st : DivState) : Prop :=
  ∀ k : String, k ≠ "" →
    file_count k st.selected = st.seenFiles k ∧
    st.seenFiles k ≤ maxPerFile

theorem file_count_append_single (k : String) (l : List RetChunk)
    (c : RetChunk) :
    file_count k (l ++ [c]) =
      file_count k l + (if c.file_id = some k then 1 else 0) := by
  unfold file_count
  rw [List.countP_append]
  simp [List.countP_cons]

theorem bumpFile_truthy (f : String → Nat) (s : String) (hs : s ≠ "")
    (k : String) :
    bumpFile f (some s) k = if k = s then f k + 1 else f k := by
  unfold bumpFile
  rw [if_pos (by unfold fidTruthy; simpa using hs)]
  simp

theorem bumpFile_falsy (f : String → Nat) (fid : Option String)
    (hf : fidTruthy fid = false) : bumpFile f fid = f := by
  unfold bumpFile
  rw [hf]
  simp

theorem div_loop_file_cap (maxChunks maxPerFile : Nat)
    (cs : List RetChunk) :
    ∀ st : DivState, DivInv maxPerFile st →
      DivInv maxPerFile (div_loop maxChunks maxPerFile cs st) := by
  induction cs with
  | nil => intro st h; exact h
  | cons c rest ih =>
    intro st h
    unfold div_loop
    split
    · exact ih st h
    · split
      · exact ih st h
      · rename_i hskip hfile
        have hinv' : DivInv maxPerFile
            { selected := st.selected ++ [c],
              seenSections := section_key c.file_id c.section_title ::
                st.seenSections,
              seenFiles := bumpFile st.seenFiles c.file_id } := by
          intro k hk
          have hbase := h k hk
          by_cases htr : fidTruthy c.file_id = true
          · obtain ⟨s, hs, hsne⟩ : ∃ s, c.file_id = some s ∧ s ≠ "" := by
              revert htr
              unfold fidTruthy
              cases hfid : c.file_id with
              | none => simp
              | some s => intro hsne; exact ⟨s, rfl, by simpa using hsne⟩
            have hcap : st.seenFiles s < maxPerFile := by
              rcases Nat.lt_or_ge (st.seenFiles s) maxPerFile with hlt | hge
              · exact hlt
              · refine absurd ⟨htr, ?_⟩ hfile
                rw [hs]
                simpa using hge
            simp only [hs, bumpFile_truthy st.seenFiles s hsne]
            by_cases hks : k = s
            · subst hks
              refine ⟨?_, ?_⟩
              · rw [file_count_append_single, (hbase).1, hs]
                simp
              · rw [if_pos rfl]
                exact Nat.succ_le_of_lt hcap
            · refine ⟨?_, ?_⟩
              · rw [file_count_append_single, (hbase).1, hs]
                have hne : ¬ (some s = some k) := by
                  intro hcon
                  exact hks (Option.some.inj hcon).symm
                rw [if_neg hne, if_neg hks]
                simp
              · rw [if_neg hks]
                exact (hbase).2
          · have htr' : fidTruthy c.file_id = false := by
              revert htr; cases fidTruthy c.file_id <;> simp
            have hnotk : ¬ c.file_id = some k := by
              intro hcon
              rw [hcon] at htr'
              unfold fidTruthy at htr'
              simp at htr'
              exact hk htr'
            rw [bumpFile_falsy st.seenFiles c.file_id htr']
            refine ⟨?_, (hbase).2⟩
            rw [file_count_append_single, (hbase).1, if_neg hnotk]
            simp
        dsimp only
        split
        · exact hinv'
        · exact ih _ hinv'

/-- Chunk from file "a", used in the claim C3 counterexample and
witness. -/
def divChunkA : RetChunk :=
  { text := "alpha text".toList, score := 1, file_id := some "a",
    filename := none, page := none, chunk_index := some 0,
    section_title := some "s1".toList, detected_clauses := [],
    reranked_score := none }

/-- Chunk from file "b", used in the claim C3 counterexample and
witness. -/
def divChunkB : RetChunk :=
  { text := "beta text".toList, score := 1, file_id := some "b",
    filename := none, page := none, chunk_index := some 1,
    section_title := some "s2".toList, detected_clauses := [],
    reranked_score := none }

/-- Claim C3: with at least two distinct eligible file ids, no single
file contributes more than `max_chunks // 2` chunks.  COUNTEREXAMPLE:
at `max_chunks = 1` the per-file cap is `max(1, 1 // 2) = 1`, so with
two candidates from two distinct files the single selected chunk gives
file "a" one chunk, exceeding `1 // 2 = 0`. -/
theorem enforce_diversity_half_cap_fails :
    enforce_diversity [divChunkA, divChunkB] 1 = [divChunkA] ∧
    divChunkA.file_id = some "a" ∧ divChunkB.file_id = some "b" ∧
    file_count "a" (enforce_diversity [divChunkA, divChunkB] 1) = 1 ∧
    ¬ file_count "a" (enforce_diversity [divChunkA, divChunkB] 1) ≤
      1 / 2 := by
  refine ⟨?_, rfl, rfl, ?_, ?_⟩ <;> decide

/-- Claim C3 (amended): for `max_chunks >= 1` the diversity filter
returns at most `max_chunks` chunks, and no single (non-empty) file id
contributes more than `max(1, max_chunks // 2)` chunks - which equals
`max_chunks // 2` for `max_chunks >= 2` but is 1 (not 0) when
`max_chunks = 1`. -/
theorem enforce_diversity_caps (chunks : List RetChunk) (max_chunks : Nat)
    (h : 1 ≤ max_chunks) :
    (enforce_diversity chunks max_chunks).length ≤ max_chunks ∧
    ∀ fid : String, fid ≠ "" →
      file_count fid (enforce_diversity chunks max_chunks) ≤
        max 1 (max_chunks / 2) := by
  constructor
  · exact div_loop_length_le max_chunks (max 1 (max_chunks / 2)) chunks
      { selected := [], seenSections := [], seenFiles := fun _ => 0 }
      (by simpa using h)
  · intro fid hfid
    have := div_loop_file_cap max_chunks (max 1 (max_chunks / 2)) chunks
      { selected := [], seenSections := [], seenFiles := fun _ => 0 }
      (by intro k hk; exact ⟨rfl, Nat.zero_le _⟩) fid hfid
    exact this.1 ▸ this.2

/-- Claim C3 witness: instantiation at the two sample chunks,
`max_chunks = 3` and file id "a". -/
theorem enforce_diversity_caps_witness :
    (enforce_diversity [divChunkA, divChunkB] 3).length ≤ 3 ∧
    file_count "a" (enforce_diversity [divChunkA, divChunkB] 3) ≤
      max 1 (3 / 2) :=
  ⟨(enforce_diversity_caps [divChunkA, divChunkB] 3 (by decide)).1,
   (enforce_diversity_caps [divChunkA, divChunkB] 3 (by decide)).2 "a"
     (by decide)⟩

/- ------------------------------------------------------------------
   Claims C1 and C10: retrieval never empty on candidates, and always
   truncated to top_k.
   ------------------------------------------------------------------ -/

theorem apply_keyword_boosting_length (query : Str)
    (results : List PCMatch) :
    (apply_keyword_boosting query results).length = results.length := by
  unfold apply_keyword_boosting
  rw [List.length_mergeSort, List.length_map]

theorem advanced_rerank_ok_length (query : Str) (chunks res : List RetChunk)
    (h : advanced_rerank query chunks = .ok res) :
    res.length = chunks.length := by
  unfold advanced_rerank at h
  split at h
  · cases h
  · cases h
    rw [List.length_mergeSort, List.length_map]

theorem take_ne_nil_of_ne_nil {α : Type} (l : List α) (k : Nat)
    (hl : l ≠ []) (hk : 1 ≤ k) : l.take k ≠ [] := by
  have hpos : 0 < l.length := List.length_pos.mpr hl
  have : 0 < (l.take k).length := by
    rw [List.length_take]
    exact lt_min hk hpos
  exact List.ne_nil_of_length_pos this

theorem div_loop_selected_length_mono (maxChunks maxPerFile : Nat)
    (cs : List RetChunk) :
    ∀ st : DivState,
      st.selected.length ≤
        (div_loop maxChunks maxPerFile cs st).selected.length := by
  induction cs with
  | nil => intro st; exact Nat.le_refl _
  | cons c rest ih =>
    intro st
    unfold div_loop
    split
    · exact ih st
    · split
      · exact ih st
      · dsimp only
        split
        · simp
        · refine le_trans ?_ (ih _)
          simp

/-- Admission of the head chunk: a non-empty input to the diversity
filter always yields a non-empty output (the first chunk passes both
skip guards against the empty initial state). -/
theorem enforce_diversity_ne_nil (chunks : List RetChunk)
    (max_chunks : Nat) (h : chunks ≠ []) :
    enforce_diversity chunks max_chunks ≠ [] := by
  obtain ⟨c, rest, rfl⟩ := List.exists_cons_of_ne_nil h
  unfold enforce_diversity div_loop
  rw [if_neg (by simp)]
  rw [if_neg (by
    intro hcon
    have := hcon.2
    simp only [max] at this
    omega)]
  dsimp only
  split
  · simp
  · have hmono := div_loop_selected_length_mono max_chunks
      (max 1 (max_chunks / 2)) rest
      { selected := [] ++ [c],
        seenSections := section_key c.file_id c.section_title :: [],
        seenFiles := bumpFile (fun _ => 0) c.file_id }
    refine List.ne_nil_of_length_pos ?_
    refine lt_of_lt_of_le ?_ hmono
    simp

theorem process_results_ne_nil (query : Str) (top_k : Nat) (min_score : ℚ)
    (uh ed : Bool) (results0 : List PCMatch)
    (htop : 1 ≤ top_k) (hres : results0 ≠ []) :
    process_results query top_k min_score uh ed results0 ≠ [] := by
  unfold process_results
  set results :=
    if uh then apply_keyword_boosting query results0 else results0 with hr
  have hresults : results ≠ [] := by
    rw [hr]
    split
    · intro hcon
      have := apply_keyword_boosting_length query results0
      rw [hcon] at this
      exact hres (List.eq_nil_of_length_eq_zero this.symm)
    · exact hres
  set relevant1 :=
    (results.filter (fun r => min_score ≤ r.score)).map to_chunk with hrel1
  set relevant2 :=
    if relevant1.isEmpty ∧ ¬ results.isEmpty then
      let fb := fallback_loop top_k results []
      if fb.isEmpty then (results.take top_k).map to_chunk else fb
    else relevant1 with hrel2
  have hrel2ne : relevant1 ≠ [] → relevant2 ≠ [] := by
    intro h1
    rw [hrel2, if_neg (by
      intro hcon
      exact h1 (List.isEmpty_iff.mp hcon.1))]
    exact h1
  have hrel2ne' : relevant1 = [] → relevant2 ≠ [] := by
    intro h1
    rw [hrel2, if_pos ⟨by rw [h1]; rfl,
      by simpa [List.isEmpty_iff] using hresults⟩]
    dsimp only
    split
    · rename_i hfb
      intro hcon
      have := List.map_eq_nil.mp hcon
      exact (take_ne_nil_of_ne_nil results top_k hresults htop) this
    · rename_i hfb
      simpa [List.isEmpty_iff] using hfb
  have h2 : relevant2 ≠ [] := by
    by_cases h1 : relevant1 = []
    · exact hrel2ne' h1
    · exact hrel2ne h1
  set relevant3 :=
    if ed ∧ ¬ relevant2.isEmpty then enforce_diversity relevant2 top_k
    else relevant2 with hrel3
  have h3 : relevant3 ≠ [] := by
    rw [hrel3]
    split
    · exact enforce_diversity_ne_nil relevant2 top_k h2
    · exact h2
  have h3' : ¬ (relevant3.isEmpty = true) := by
    intro hcon
    exact h3 (List.isEmpty_iff.mp hcon)
  rw [if_neg h3']
  split
  · rename_i res hok
    split
    · rename_i hne
      refine take_ne_nil_of_ne_nil res top_k ?_ htop
      intro hcon
      exact hne (by rw [hcon]; rfl)
    · exact take_ne_nil_of_ne_nil relevant3 top_k h3 htop
  · exact take_ne_nil_of_ne_nil relevant3 top_k h3 htop

theorem process_results_length_le (query : Str) (top_k : Nat)
    (min_score : ℚ) (uh ed : Bool) (results0 : List PCMatch) :
    (process_results query top_k min_score uh ed results0).length ≤
      top_k ∨
    process_results query top_k min_score uh ed results0 = [] := by
  unfold process_results
  set results :=
    if uh then apply_keyword_boosting query results0 else results0 with hr
  set relevant1 :=
    (results.filter (fun r => min_score ≤ r.score)).map to_chunk with hrel1
  set relevant2 :=
    if relevant1.isEmpty ∧ ¬ results.isEmpty then
      let fb := fallback_loop top_k results []
      if fb.isEmpty then (results.take top_k).map to_chunk else fb
    else relevant1 with hrel2
  set relevant3 :=
    if ed ∧ ¬ relevant2.isEmpty then enforce_diversity relevant2 top_k
    else relevant2 with hrel3
  by_cases hemp : relevant3.isEmpty = true
  · rw [if_pos hemp]
    right
    exact List.isEmpty_iff.mp hemp
  · rw [if_neg hemp]
    left
    split
    · split
      · exact List.length_take_le _ _
      · exact List.length_take_le _ _
    · exact List.length_take_le _ _

/-- Claim C1: for every query for which the vector store returns at
least one candidate (and `top_k >= 1`), `retrieve_context_enhanced`
returns a non-empty chunk list: the adaptive fallback ladder takes over
when no candidate clears `min_score`, and as a last resort the top
`top_k` candidates are returned regardless of score. -/
theorem retrieve_context_enhanced_never_empty
    (store : Option (List String) → Nat → List PCMatch) (query : Str)
    (file_ids : List String) (top_k : Nat) (min_score : ℚ)
    (uh ed : Bool) (htop : 1 ≤ top_k)
    (hres : retrieved_candidates store file_ids top_k ed ≠ []) :
    retrieve_context_enhanced store query file_ids top_k min_score
      uh ed ≠ [] := by
  unfold retrieve_context_enhanced
  dsimp only
  rw [if_neg (fun hcon => hres (List.isEmpty_iff.mp hcon))]
  exact process_results_ne_nil query top_k min_score uh ed _ htop hres

/-- Claim C10: for every query, optional file filter and `top_k >= 1`,
`retrieve_context_enhanced` returns at most `top_k` chunks, although it
requests `top_k * 3` (or `top_k * 2`) candidates from the store: every
exit path that yields a non-empty result truncates to `top_k`. -/
theorem retrieve_context_enhanced_at_most_top_k
    (store : Option (List String) → Nat → List PCMatch) (query : Str)
    (file_ids : List String) (top_k : Nat) (min_score : ℚ)
    (uh ed : Bool) (htop : 1 ≤ top_k) :
    (retrieve_context_enhanced store query file_ids top_k min_score
      uh ed).length ≤ top_k := by
  unfold retrieve_context_enhanced
  dsimp only
  split
  · simpa using htop
  · rcases process_results_length_le query top_k min_score uh ed
      (retrieved_candidates store file_ids top_k ed) with h | h
    · exact h
    · rw [h]
      simpa using htop

/-- Store oracle returning one candidate, used by the claim C1 and C10
witnesses. -/
def demoStore : Option (List String) → Nat → List PCMatch :=
  fun _ _ => [demoMatchHalf]

/-- Claim C1 witness: instantiation at the one-candidate store with
`top_k = 1`. -/
theorem retrieve_context_enhanced_never_empty_witness :
    retrieve_context_enhanced demoStore [] [] 1 0 true true ≠ [] :=
  retrieve_context_enhanced_never_empty demoStore [] [] 1 0 true true
    (by decide) (by decide)

/-- Claim C10 witness: instantiation at the one-candidate store with
`top_k = 1`. -/
theorem retrieve_context_enhanced_at_most_top_k_witness :
    (retrieve_context_enhanced demoStore [] [] 1 0 true true).length ≤ 1 :=
  retrieve_context_enhanced_at_most_top_k demoStore [] [] 1 0 true true
    (by decide)
